import Mathlib

/-!
Verification development for the metafix repository (a music-release tag
validator and fixer).  The Python sources under `src/metafix` are shallowly
embedded below: Python objects become Lean structures, in-place mutation
becomes explicit state passing (`Release → Release`), machine integers become
`Nat`, optional/None-able fields become `Option`, and code paths that would
raise an uncaught Python exception are modelled by `Option`-returning
functions (`none` = the call raises).  The external metadata oracle
(lastfmcache) is modelled as a pure stable function, matching the
spec assumption of "stable oracle responses"; its not-found errors are
`none` results.  A few collaborators live outside this repository's `src/`
(the `cleartag` library and the `ReleaseSource` enum absent from
`constants.py`); those are modelled from the spec and are marked as such in
their doc comments.
-/

namespace Metafix

/-- Single-quote character as a string (used to build violation messages). -/
def sq : String := Char.toString (Char.ofNat 39)

/-- Python truthiness of an optional integer field: `None` and `0` are falsy. -/
def truthyNat : Option Nat → Bool
  | none => false
  | some n => n != 0

/-- Python truthiness of an optional string field: `None` and the empty string are falsy. -/
def truthyStr : Option String → Bool
  | none => false
  | some s => s != ""

/-- Python `x or 1` on an optional integer (used for `track.disc_number or 1`). -/
def pyOr1 : Option Nat → Nat
  | none => 1
  | some n => if n = 0 then 1 else n

/-- Test whether `pat` is a prefix of `l` (plain character equality). -/
def listIsPre : List Char → List Char → Bool
  | [], _ => true
  | _ :: _, [] => false
  | p :: ps, c :: cs => p == c && listIsPre ps cs

/-- Python whitespace class used by `str.strip()` and `str.split()`. -/
def pyIsSpace (c : Char) : Bool :=
  c = ' ' || c = '\t' || c = '\n' || c = '\r' || c = '\x0b' || c = '\x0c'

/-- Python `str.strip()` (whitespace trim; list-based so the kernel can
evaluate it). -/
def pyStrip (s : String) : String :=
  String.mk (((s.data.dropWhile pyIsSpace).reverse.dropWhile pyIsSpace).reverse)

/-- Python `str.lower()` (ASCII case folding suffices for the embedded data). -/
def pyLower (s : String) : String := String.mk (s.data.map Char.toLower)

/-- Python `str.upper()`. -/
def pyUpper (s : String) : String := String.mk (s.data.map Char.toUpper)

/-- Python `s.endswith(suffix)` (list-based). -/
def strEndsWith (s suffix : String) : Bool :=
  listIsPre suffix.data.reverse s.data.reverse

/-- Drop the last `n` characters of a string (Python slicing `s[0:-n]`). -/
def strDropRight (s : String) (n : Nat) : String :=
  String.mk (s.data.take (s.data.length - n))

/-- Splitting accumulator for `splitChar`. -/
def splitCharAux (sep : Char) : List Char → List Char → List (List Char)
  | [], cur => [cur.reverse]
  | c :: rest, cur =>
    if c = sep then cur.reverse :: splitCharAux sep rest []
    else splitCharAux sep rest (c :: cur)

/-- Python `s.split(sep)` for a one-character separator. -/
def splitChar (sep : Char) (s : String) : List String :=
  (splitCharAux sep s.data []).map String.mk

/-- Splitting accumulator over a character class. -/
def splitPredAux (p : Char → Bool) : List Char → List Char → List (List Char)
  | [], cur => [cur.reverse]
  | c :: rest, cur =>
    if p c then cur.reverse :: splitPredAux p rest []
    else splitPredAux p rest (c :: cur)

/-- Python `sep.join(parts)`. -/
def myIntercalate (sep : String) : List String → String
  | [] => ""
  | [x] => x
  | x :: rest => x ++ sep ++ myIntercalate sep rest

/-- Python `"".join(parts)`. -/
def myJoin (l : List String) : String := l.foldl (fun a b => a ++ b) ""

/-- Fueled scanning loop of `strReplace` (each step consumes at least one
character for a non-empty pattern). -/
def replScan (pat repl : List Char) : Nat → List Char → List Char
  | 0, l => l
  | _ + 1, [] => []
  | fuel + 1, c :: rest =>
    if listIsPre pat (c :: rest) then
      repl ++ replScan pat repl fuel ((c :: rest).drop pat.length)
    else c :: replScan pat repl fuel rest

/-- Python `s.replace(pat, repl)`: replace all non-overlapping occurrences,
left to right (the empty-pattern case never arises below). -/
def strReplace (s pat repl : String) : String :=
  if pat.data.isEmpty then s
  else String.mk (replScan pat.data repl.data s.data.length s.data)

/-- Prefix of a string up to (excluding) the first occurrence of a character
(Python `s.split(c)[0]`). -/
def strTakeUntil (c : Char) (s : String) : String :=
  String.mk (s.data.takeWhile (fun x => x ≠ c))

/-- Test whether `pat` (given in lowercase) is a case-insensitive prefix of `l`. -/
def listIsPreCI : List Char → List Char → Bool
  | [], _ => true
  | _ :: _, [] => false
  | p :: ps, c :: cs => p == c.toLower && listIsPreCI ps cs

/-- Python `needle in hay` (contiguous substring test) on character lists. -/
def listHasSub (needle : List Char) : List Char → Bool
  | [] => listIsPre needle []
  | c :: cs => listIsPre needle (c :: cs) || listHasSub needle cs

/-- Python `needle in hay` for strings. -/
def strHasSub (hay needle : String) : Bool := listHasSub needle.data hay.data

/-- Boolean lexicographic comparison of character lists (code-point order),
used to give Python `sorted` on strings a kernel-computable decision
procedure. -/
def listLeChars : List Char → List Char → Bool
  | [], _ => true
  | _ :: _, [] => false
  | a :: as, b :: bs => if a < b then true else if b < a then false else listLeChars as bs

/-- Value of a decimal digit list (Python `int` on a digit string). -/
def digitsToNat (l : List Char) : Nat :=
  l.foldl (fun acc c => acc * 10 + (c.toNat - 48)) 0

/-- Python `str.isdigit()` restricted to ASCII digits. -/
def pyIsdigit (s : String) : Bool :=
  !s.data.isEmpty && s.data.all Char.isDigit

/-- Python `str.islower()`: at least one cased character and no uppercase one. -/
def pyIslower (s : String) : Bool :=
  s.data.any (fun c => c.isLower) && !s.data.any (fun c => c.isUpper)

/-- Python `str.capitalize()`: first character uppercased, all others lowercased. -/
def pyCapitalize (s : String) : String :=
  match s.data with
  | [] => ""
  | c :: cs => String.mk (c.toUpper :: cs.map Char.toLower)

/-- Python `" ".join(s.split())`: collapse runs of whitespace to single spaces. -/
def collapseWs (s : String) : String :=
  myIntercalate " " (((splitPredAux pyIsSpace s.data []).map String.mk).filter (fun w => w != ""))

/-- Python `round(n, -3)` on a non-negative integer: round to a multiple of
1000 with ties going to the even multiple (banker's rounding). -/
def pyRound1000 (n : Nat) : Nat :=
  let q := n / 1000
  let r := n % 1000
  if r < 500 then q * 1000
  else if 500 < r then (q + 1) * 1000
  else if q % 2 = 0 then q * 1000 else (q + 1) * 1000

/-- Round the non-negative rational `num / den` to the nearest integer with
ties going to even (Python `round` on the corresponding float, with the
float's rounding error idealised away). -/
def roundHalfEven (num den : Nat) : Nat :=
  let q := num / den
  let r := num % den
  if 2 * r < den then q
  else if den < 2 * r then q + 1
  else if q % 2 = 0 then q else q + 1

/-- The `unique` helper of `functions.py`, specialised by the key under which
items are compared.  For scalar items (strings, integers, `None`) the Python
code compares the items themselves (`key = id`); for list items it compares
their sorted copies.  First occurrences are kept, in order. -/
def uniqueBy {α κ : Type} [DecidableEq κ] (key : α → κ) : List α → List κ → List α
  | [], _ => []
  | x :: xs, seen =>
    if key x ∈ seen then uniqueBy key xs seen
    else x :: uniqueBy key xs (key x :: seen)

/-- Scalar-branch `unique` (membership by equality, first occurrences kept). -/
def uniqueScalar {α : Type} [DecidableEq α] (l : List α) : List α :=
  uniqueBy id l []

/-- Python `sorted` on a list of naturals (embedded as an insertion sort;
Python's sort is a stable comparison sort, and on naturals any comparison
sort agrees). -/
def pySortNat (l : List Nat) : List Nat :=
  List.insertionSort (fun a b => a ≤ b) l

/-- Kernel-computable decision procedure for the core `String` order (the
built-in `String.decidableLE` iterates over byte positions and does not
reduce in the kernel). -/
def strDecLe (a b : String) : Decidable (a ≤ b) :=
  decidable_of_iff (listLeChars a.data b.data = true) (by
    have key : ∀ as bs : List Char,
        listLeChars as bs = true ↔ ¬ List.Lex (fun x y : Char => x < y) bs as := by
      intro as
      induction as with
      | nil =>
        intro bs
        simp only [listLeChars]
        constructor
        · intro _ h
          cases h
        · intro _
          trivial
      | cons a as ih =>
        intro bs
        cases bs with
        | nil =>
          simp only [listLeChars]
          constructor
          · intro h
            simp at h
          · intro h
            exact absurd List.Lex.nil h
        | cons b bs =>
          simp only [listLeChars]
          rcases lt_trichotomy a b with h | h | h
          · simp only [if_pos h]
            constructor
            · intro _ hlt
              cases hlt with
              | cons _ => exact absurd rfl (ne_of_gt h)
              | rel hba => exact absurd h (asymm hba)
            · intro _
              trivial
          · subst h
            simp only [if_neg (lt_irrefl a)]
            rw [ih bs]
            constructor
            · intro hn hlt
              cases hlt with
              | cons htl => exact hn htl
              | rel haa => exact absurd haa (lt_irrefl a)
            · intro hn hlt
              exact hn (List.Lex.cons hlt)
          · simp only [if_neg (asymm h), if_pos h]
            constructor
            · intro hf
              simp at hf
            · intro hn
              exact absurd (List.Lex.rel h) hn
    exact (key a.data b.data).trans
      (by rw [String.le_iff_toList_le, ← not_lt]; exact Iff.rfl))

/-- Python `sorted` on a list of strings (code-point lexicographic order,
which is the order of Lean's `String` instance). -/
def pySortStr (l : List String) : List String :=
  @List.insertionSort String (fun a b => a ≤ b) (fun a b => strDecLe a b) l

/-- List-branch `unique` for lists of strings: elements are deduplicated by
their sorted copies (`functions.py` lines 18-22). -/
def uniqueSortedKey (l : List (List String)) : List (List String) :=
  uniqueBy pySortStr l []

end Metafix

namespace Metafix

/-! Fueled left-to-right scan-and-substitute engine mirroring `re.sub`:
matchers report how many characters beyond the first one a match consumes and
the replacement text; scanning resumes after the consumed characters
(non-overlapping matches, leftmost first).  Every matcher consumes at least
one character, so fuel equal to the input length always suffices. -/

/-- Core scanning loop for `re.sub`-style substitution (fuel-based recursion). -/
def scanSub (m : Char → List Char → Option (Nat × List Char)) : Nat → List Char → List Char
  | 0, l => l
  | _ + 1, [] => []
  | fuel + 1, c :: rest =>
    match m c rest with
    | some (k, repl) => repl ++ scanSub m fuel (rest.drop k)
    | none => c :: scanSub m fuel rest

/-- Run a substitution matcher over a whole string. -/
def runSub (m : Char → List Char → Option (Nat × List Char)) (s : String) : String :=
  String.mk (scanSub m s.data.length s.data)

/-- Shared tail for the `(.)?( )?` groups of the feat/vs patterns: greedily
consume one arbitrary non-newline character if present, then one space if
present; returns the number of characters consumed. -/
def dotSpaceOpt (l : List Char) : Nat :=
  match l with
  | [] => 0
  | c :: rest =>
    if c = '\n' then 0
    else 1 + (match rest with
              | ' ' :: _ => 1
              | _ => 0)

/-- Matcher for `re.sub("(?i) feat(.)?( )?", " feat. ", s)` (`normalize_str`). -/
def mFeatSpace (c : Char) (rest : List Char) : Option (Nat × List Char) :=
  if c = ' ' && listIsPreCI "feat".data rest then
    some (4 + dotSpaceOpt (rest.drop 4), " feat. ".data)
  else none

/-- Matcher for `re.sub("(?i)\\(feat(.)?( )?", "(feat. ", s)` (`normalize_str`). -/
def mFeatParen (c : Char) (rest : List Char) : Option (Nat × List Char) :=
  if c = '(' && listIsPreCI "feat".data rest then
    some (4 + dotSpaceOpt (rest.drop 4), "(feat. ".data)
  else none

/-- Matcher for `re.sub("(?i)( )?vs(.)?( )?", " vs. ", s)`
(`normalize_track_title` / `normalize_artist_name`). -/
def mVs (c : Char) (rest : List Char) : Option (Nat × List Char) :=
  if c = ' ' && listIsPreCI "vs".data rest then
    some (2 + dotSpaceOpt (rest.drop 2), " vs. ".data)
  else if c.toLower = 'v' && listIsPreCI "s".data rest then
    some (1 + dotSpaceOpt (rest.drop 1), " vs. ".data)
  else none

/-- Digit tail of the disc/cd removal pattern: `(\d{1,2})[\]})]?` with a
greedy two-digit attempt; returns characters consumed. -/
def discDigitsTail (l : List Char) : Option Nat :=
  match l with
  | d1 :: rest =>
    if d1.isDigit then
      match rest with
      | d2 :: rest2 =>
        if d2.isDigit then
          some (2 + (match rest2 with
                     | b :: _ => if b = ']' || b = '}' || b = ')' then 1 else 0
                     | [] => 0))
        else
          some (1 + (if d2 = ']' || d2 = '}' || d2 = ')' then 1 else 0))
      | [] => some 1
    else none
  | [] => none

/-- Keyword-and-digits tail of `' ?[\[{(]?(disc|disk|cd) ?(\d{1,2})[\]})]?'`:
matches `[\[{(]?(disc|disk|cd) ?(\d{1,2})[\]})]?` at the start of `l`,
returning characters consumed. -/
def discTail (l : List Char) : Option Nat :=
  let afterBracket :=
    match l with
    | b :: rest => if b = '[' || b = '{' || b = '(' then (1, rest) else (0, l)
    | [] => (0, l)
  let kwTry := fun (kw : String) (l1 : List Char) =>
    if listIsPreCI kw.data l1 then
      let l2 := l1.drop kw.length
      match l2 with
      | ' ' :: l3 =>
        match discDigitsTail l3 with
        | some k => some (kw.length + 1 + k)
        | none =>
          match discDigitsTail l2 with
          | some k => some (kw.length + k)
          | none => none
      | _ =>
        match discDigitsTail l2 with
        | some k => some (kw.length + k)
        | none => none
    else none
  match kwTry "disc" afterBracket.2 with
  | some k => some (afterBracket.1 + k)
  | none =>
    match kwTry "disk" afterBracket.2 with
    | some k => some (afterBracket.1 + k)
    | none =>
      match kwTry "cd" afterBracket.2 with
      | some k => some (afterBracket.1 + k)
      | none => none

/-- Matcher for `re.sub(r'(?i) ?[\[{(]?(disc|disk|cd) ?(\d{1,2})[\]})]?', "", s)`
(`normalize_str`). -/
def mDiscCd (c : Char) (rest : List Char) : Option (Nat × List Char) :=
  if c = ' ' then
    match discTail rest with
    | some k => some (k, [])
    | none => none
  else
    match discTail (c :: rest) with
    | some k => some (k - 1, [])
    | none => none

/-- Matcher for `re.sub(r"[\[{( ]web[\]})]?", "", s, flags=re.I)`
(`get_category_fix_name`). -/
def mWeb (c : Char) (rest : List Char) : Option (Nat × List Char) :=
  if (c = '[' || c = '{' || c = '(' || c = ' ') && listIsPreCI "web".data rest then
    some (3 + (match rest.drop 3 with
               | b :: _ => if b = ']' || b = '}' || b = ')' then 1 else 0
               | [] => 0), [])
  else none

/-- Matcher for `re.sub("(?i)( )?" + re.escape(lit), "", s)`: a literal with an
optional preceding space, case-insensitively (`__fix_release_title`).  The
literal is supplied lowercased. -/
def mLitOptSpace (lit : List Char) (c : Char) (rest : List Char) : Option (Nat × List Char) :=
  if c = ' ' && listIsPreCI lit rest then some (lit.length, [])
  else if listIsPreCI lit (c :: rest) then some (lit.length - 1, [])
  else none

/-- Substitution `re.sub("(?i)( )?" + re.escape(lit), "", s)` over a string. -/
def subLitOptSpace (lit : String) (s : String) : String :=
  runSub (mLitOptSpace (pyLower lit).data) s

/-- Conditional removal `if re.search(p, s): s = re.sub(p, "", s)` for the
end-anchored pattern `"(?i)( \\-)? " + lit + "$"` (`__fix_release_title`). -/
def stripTrailingPy (lit : String) (s : String) : String :=
  let ls := pyLower s
  let lt := pyLower lit
  if strEndsWith ls (" - " ++ lt) then strDropRight s (" - " ++ lt).length
  else if strEndsWith ls (" " ++ lt) then strDropRight s (" " ++ lt).length
  else s

end Metafix

namespace Metafix

/-- Separator class `[ \-_]` of `extract_track_disc`. -/
def isSep (c : Char) : Bool := c = ' ' || c = '-' || c = '_'

/-- One attempt of the group `(\d{1,2})[ \-_]` after a separator: one or two
digits (greedy) followed by another separator; returns the digit value and the
number of characters consumed from the list. -/
def sepDigitsTail (l : List Char) : Option (Nat × Nat) :=
  match l with
  | d1 :: rest =>
    if d1.isDigit then
      match rest with
      | d2 :: rest2 =>
        if d2.isDigit then
          match rest2 with
          | b :: _ => if isSep b then some (digitsToNat [d1, d2], 3) else none
          | [] => none
        else if isSep d2 then some (digitsToNat [d1], 2) else none
      | [] => none
    else none
  | [] => none

/-- Fueled scan for `re.findall(r"[ \-_]{1}(\d{1,2})[ \-_]", s)` collecting the
digit groups of the non-overlapping matches. -/
def sepDigitsScan : Nat → List Char → List Nat
  | 0, _ => []
  | _ + 1, [] => []
  | fuel + 1, c :: rest =>
    if isSep c then
      match sepDigitsTail rest with
      | some (v, k) => v :: sepDigitsScan fuel (rest.drop k)
      | none => sepDigitsScan fuel rest
    else sepDigitsScan fuel rest

/-- The `extract_track_disc` helper of `functions.py`: mine a filename for a
track number (and possibly a disc number).  A leading run of 2-4 digits is
split into disc prefix and two-digit track number; failing a truthy track
number from that, a unique separator-delimited 1-2 digit token is used. -/
def extract_track_disc (filename : String) : Option Nat × Option Nat :=
  let cs := filename.data
  let lead := (cs.takeWhile Char.isDigit).take 4
  let track0 : Option Nat :=
    if 2 ≤ lead.length then some (digitsToNat (lead.drop (lead.length - 2))) else none
  let disc : Option Nat :=
    if 2 < lead.length then some (digitsToNat (lead.take (lead.length - 2))) else none
  let track :=
    if truthyNat track0 then track0
    else
      let found := sepDigitsScan cs.length cs
      if found.length = 1 then some (found.headD 0) else track0
  (track, disc)

/-- The trailing part `(\d{4})($|-|_| )` of the plain release-year pattern:
exactly four digits followed by the end of the string or a separator
(which is consumed); returns the year and characters consumed. -/
def yearDigitsTail (l : List Char) : Option (Nat × Nat) :=
  let ds := l.take 4
  if ds.length = 4 && ds.all Char.isDigit then
    match l.drop 4 with
    | [] => some (digitsToNat ds, 4)
    | b :: _ => if b = '-' || b = '_' || b = ' ' then some (digitsToNat ds, 5) else none
  else none

/-- Fueled scan for `re.findall(r"(^|-|_| )(\d{4})($|-|_| )", s)`; the flag
records whether the scan position is still the very start of the string
(where the `^` alternative applies without consuming a character). -/
def yearScanPlain : Nat → Bool → List Char → List Nat
  | 0, _, _ => []
  | _ + 1, _, [] => []
  | fuel + 1, atStart, c :: rest =>
    if atStart then
      match yearDigitsTail (c :: rest) with
      | some (v, k) => v :: yearScanPlain fuel false ((c :: rest).drop k)
      | none =>
        if c = '-' || c = '_' || c = ' ' then
          match yearDigitsTail rest with
          | some (v, k) => v :: yearScanPlain fuel false (rest.drop k)
          | none => yearScanPlain fuel false rest
        else yearScanPlain fuel false rest
    else
      if c = '-' || c = '_' || c = ' ' then
        match yearDigitsTail rest with
        | some (v, k) => v :: yearScanPlain fuel false (rest.drop k)
        | none => yearScanPlain fuel false rest
      else yearScanPlain fuel false rest

/-- Fueled scan for `re.findall(r"(\(|\[|{)(\d{4})(\)|\]|})", s)`. -/
def yearScanBracket : Nat → List Char → List Nat
  | 0, _ => []
  | _ + 1, [] => []
  | fuel + 1, c :: rest =>
    if c = '(' || c = '[' || c = '\x7b' then
      let ds := rest.take 4
      if ds.length = 4 && ds.all Char.isDigit then
        match rest.drop 4 with
        | b :: _ =>
          if b = ')' || b = ']' || b = '\x7d' then
            digitsToNat ds :: yearScanBracket fuel (rest.drop 5)
          else yearScanBracket fuel rest
        | [] => yearScanBracket fuel rest
      else yearScanBracket fuel rest
    else yearScanBracket fuel rest

/-- The `extract_release_year` helper of `functions.py`.  The comparison with
`datetime.date.today().year` is made explicit through the `currentYear`
parameter. -/
def extract_release_year (folder_name : String) (currentYear : Nat) : Option Nat :=
  let cs := folder_name.data
  let m1 := yearScanPlain cs.length true cs
  if m1.length = 1 && 1920 ≤ m1.headD 0 && m1.headD 0 ≤ currentYear then
    some (m1.headD 0)
  else
    let m2 := yearScanBracket cs.length cs
    if m2.length = 1 && 1920 ≤ m2.headD 0 && m2.headD 0 ≤ currentYear then
      some (m2.headD 0)
    else none

/-- Digits part `(\d{1,2})` with the optional preceding space of the
disc-token pattern: greedy one or two digits, mandatory. -/
def tokenDigits (l : List Char) : Option Nat :=
  match l with
  | d1 :: rest =>
    if d1.isDigit then
      match rest with
      | d2 :: _ => if d2.isDigit then some (digitsToNat [d1, d2]) else some (digitsToNat [d1])
      | [] => some (digitsToNat [d1])
    else if d1 = ' ' then
      match rest with
      | d2 :: rest2 =>
        if d2.isDigit then
          match rest2 with
          | d3 :: _ => if d3.isDigit then some (digitsToNat [d2, d3]) else some (digitsToNat [d2])
          | [] => some (digitsToNat [d2])
        else none
      | [] => none
    else none
  | [] => none

/-- One keyword alternative of `(?i)(disc|disk|cd|part) ?(\d{1,2})`. -/
def tokenKwTry (kw : String) (l : List Char) : Option Nat :=
  if listIsPreCI kw.data l then tokenDigits (l.drop kw.length) else none

/-- First match of `re.findall(r'(?i)(disc|disk|cd|part) ?(\d{1,2})', s)`,
returning its digit group (`__extract_disc_numbers_from_folder_name` uses
only `match[0][1]`). -/
def firstDiscToken : Nat → List Char → Option Nat
  | 0, _ => none
  | _ + 1, [] => none
  | fuel + 1, c :: rest =>
    match tokenKwTry "disc" (c :: rest) with
    | some v => some v
    | none =>
      match tokenKwTry "disk" (c :: rest) with
      | some v => some v
      | none =>
        match tokenKwTry "cd" (c :: rest) with
        | some v => some v
        | none =>
          match tokenKwTry "part" (c :: rest) with
          | some v => some v
          | none => firstDiscToken fuel rest

/-- Whole-suffix test for the edition pattern `([({[][\w\-_ ]+[)}\]])$` of
`split_release_title`: an opening bracket, a non-empty body of word
characters, hyphens, underscores or spaces, and a closing bracket ending the
string. -/
def editionSuffixOk (l : List Char) : Bool :=
  match l with
  | open1 :: rest =>
    (open1 = '(' || open1 = '[' || open1 = '\x7b') &&
    (match rest.getLast? with
     | some close1 => close1 = ')' || close1 = ']' || close1 = '\x7d'
     | none => false) &&
    !rest.dropLast.isEmpty &&
    rest.dropLast.all (fun c => c.isAlphanum || c = '_' || c = '-' || c = ' ')
  | [] => false

/-- Leftmost suffix of the string matching the edition pattern (the result of
`re.search` in `split_release_title`). -/
def editionScan : List Char → Option (List Char)
  | [] => none
  | c :: rest => if editionSuffixOk (c :: rest) then some (c :: rest) else editionScan rest

/-- The `split_release_title` helper of `functions.py`: split a trailing
bracketed edition marker off a release title. -/
def split_release_title (release_title_full : String) : String × String :=
  match editionScan release_title_full.data with
  | some ed =>
    let release_edition := String.mk ed
    (pyStrip (strReplace release_title_full release_edition ""), release_edition)
  | none => (release_title_full, "")

/-- Python `os.path.split(p)[-1]`: the part of the path after the last slash. -/
def pathTail (p : String) : String :=
  (splitChar '/' p).getLastD p

/-- Python `os.path.split(p)[0]`: the part of the path before the last slash
(empty when there is no slash; a possible trailing-slash subtlety of
`os.path.split` does not arise for the directory-token scan it feeds). -/
def pathHead (p : String) : String :=
  myIntercalate "/" (splitChar '/' p).dropLast

end Metafix

namespace Metafix

/-- The `ReleaseCategory` enumeration of `constants.py`.  `VIDEO_GAME_MUSIC`
is referenced by `Release.py` but absent from the shipped `constants.py`;
it is modelled from the spec (category vocabulary of §4.1/§9) with a display
value parallel to the other members. -/
inductive ReleaseCategory
  | ALBUM | ANTHOLOGY | BOOTLEG | COMPILATION | CONCERT_RECORDING | DEMO | EP
  | GAME_SOUNDTRACK | VIDEO_GAME_MUSIC | INTERVIEW | LIVE_ALBUM | MIX | MIXTAPE
  | REMIX | SINGLE | SOUNDTRACK | UNKNOWN
deriving DecidableEq

/-- Display values of `ReleaseCategory` (`constants.py` lines 4-20). -/
def ReleaseCategory.value : ReleaseCategory → String
  | .ALBUM => "Album"
  | .ANTHOLOGY => "Anthology"
  | .BOOTLEG => "Bootleg"
  | .COMPILATION => "Compilation"
  | .CONCERT_RECORDING => "Concert Recording"
  | .DEMO => "Demo"
  | .EP => "EP"
  | .GAME_SOUNDTRACK => "Game Soundtrack"
  | .VIDEO_GAME_MUSIC => "Video Game Music"
  | .INTERVIEW => "Interview"
  | .LIVE_ALBUM => "Live Album"
  | .MIX => "Mix"
  | .MIXTAPE => "Mixtape"
  | .REMIX => "Remix"
  | .SINGLE => "Single"
  | .SOUNDTRACK => "Soundtrack"
  | .UNKNOWN => "Unknown"

/-- Iteration order of the `ReleaseCategory` enum (definition order). -/
def releaseCategories : List ReleaseCategory :=
  [.ALBUM, .ANTHOLOGY, .BOOTLEG, .COMPILATION, .CONCERT_RECORDING, .DEMO, .EP,
   .GAME_SOUNDTRACK, .VIDEO_GAME_MUSIC, .INTERVIEW, .LIVE_ALBUM, .MIX, .MIXTAPE,
   .REMIX, .SINGLE, .SOUNDTRACK, .UNKNOWN]

/-- Modelled from the spec: the `ReleaseSource` enumeration is imported from
`metafix.constants` by `Release.py` and `ReleaseValidator.py` but is missing
from the shipped `constants.py`.  The spec (§3) gives the vocabulary
"CD/WEB/Vinyl, default CD", and the code references `ReleaseSource.UNKNOWN`
(the constructor default) and `ReleaseSource.CD`; the `UNKNOWN` display value
is modelled parallel to `ReleaseCategory.UNKNOWN`. -/
inductive ReleaseSource
  | CD | WEB | VINYL | UNKNOWN
deriving DecidableEq

/-- Modelled from the spec: display values of `ReleaseSource` (§3 vocabulary). -/
def ReleaseSource.value : ReleaseSource → String
  | .CD => "CD"
  | .WEB => "WEB"
  | .VINYL => "Vinyl"
  | .UNKNOWN => "Unknown"

/-- Iteration order of the `ReleaseSource` enum. -/
def releaseSources : List ReleaseSource := [.CD, .WEB, .VINYL, .UNKNOWN]

/-- Python `bool(enum_member)`: `Enum` members define no `__bool__`, so every
member — including `ReleaseCategory.UNKNOWN` — is truthy. -/
def pyEnumTruthy (_ : ReleaseCategory) : Bool := true

/-- The `ViolationType` enumeration of `constants.py`.  `ARTIST_LOOKUP`,
`RELEASE_TITLE_SOURCE`, `RELEASE_TITLE_CATEGORY` and `COMMENT_SUBSTRING` are
referenced by `ReleaseValidator.py` but missing from the shipped
`constants.py`; their display values are never consulted by the code. -/
inductive ViolationType
  | ARTIST_WHITESPACE | RELEASE_ARTIST_WHITESPACE | DATE_WHITESPACE
  | RELEASE_TITLE_WHITESPACE | TRACK_TITLE_WHITESPACE | GENRE_WHITESPACE
  | DATE_INCONSISTENT | ARTIST_BLANK | TRACK_TITLE_BLANK
  | RELEASE_ARTIST_INCONSISTENT | RELEASE_ARTIST_SPELLING
  | RELEASE_ARTIST_NOT_FOUND | RELEASE_TITLE_INCONSISTENT
  | RELEASE_TITLE_SPELLING | DATE_INCORRECT | BAD_GENRES
  | INCORRECT_TRACK_TITLE | TRACK_ARTIST_SPELLING | MISSING_TRACKS
  | TOTAL_TRACKS_INCONSISTENT | MISSING_DISCS | TOTAL_DISCS_INCONSISTENT
  | TAG_TYPES_INCONSISTENT | CODECS_INCONSISTENT | CBR_INCONSISTENT | FILENAME
  | ARTIST_LOOKUP | RELEASE_TITLE_SOURCE | RELEASE_TITLE_CATEGORY
  | COMMENT_SUBSTRING
deriving DecidableEq

/-- The `Violation` value of `Violation.py`: a kind plus a display message. -/
structure Violation where
  violation_type : ViolationType
  message : String
deriving DecidableEq

/-- Modelled from the spec: tag-container kinds of the external `cleartag`
library (`TagType`); only the members exercised by the repository's code and
tests are included. -/
inductive TagType
  | ID3 | MP4 | FLAC
deriving DecidableEq

/-- Modelled from the spec: encoder methods of the external `cleartag`
library (`Mp3Method`). -/
inductive Mp3Method
  | CBR | VBR | ABR | UNKNOWN
deriving DecidableEq

/-- Modelled from the spec (§3): the stream/encoder descriptor carried by a
track.  `length` is the stream duration in seconds; Python stores a float,
idealised here as a natural number (only the VBR average, unused by any
claim, consumes it). -/
structure StreamInfo where
  tag_type : TagType
  mp3_method : Mp3Method
  bitrate : Nat
  length : Nat
deriving DecidableEq

/-- The track data model (spec §3; field set of the external `cleartag.Track`
extended by `metafix.Track`).  `Option` fields are Python `None`-able. -/
structure Track where
  artists : List String := []
  release_artists : List String := []
  release_title : Option String := none
  track_title : Option String := none
  date : Option String := none
  track_number : Option Nat := none
  total_tracks : Option Nat := none
  disc_number : Option Nat := none
  total_discs : Option Nat := none
  genres : List String := []
  comment : Option String := none
  stream_info : StreamInfo
deriving DecidableEq

/-- Default track used where Python would fault on an empty collection. -/
instance : Inhabited Track :=
  ⟨{ stream_info := { tag_type := .ID3, mp3_method := .CBR, bitrate := 0, length := 0 } }⟩

/-- The `strip_whitespace_artists` method of `metafix.Track`. -/
def Track.strip_whitespace_artists (t : Track) : List String :=
  uniqueScalar (t.artists.map pyStrip)

/-- The `strip_whitespace_release_artists` method of `metafix.Track`. -/
def Track.strip_whitespace_release_artists (t : Track) : List String :=
  uniqueScalar (t.release_artists.map pyStrip)

/-- The `strip_whitespace_date` method of `metafix.Track`. -/
def Track.strip_whitespace_date (t : Track) : Option String :=
  if truthyStr t.date then t.date.map pyStrip else none

/-- The `strip_whitespace_release_title` method of `metafix.Track`. -/
def Track.strip_whitespace_release_title (t : Track) : Option String :=
  if truthyStr t.release_title then t.release_title.map pyStrip else none

/-- The `strip_whitespace_track_title` method of `metafix.Track`. -/
def Track.strip_whitespace_track_title (t : Track) : Option String :=
  if truthyStr t.track_title then t.track_title.map pyStrip else none

/-- The `strip_whitespace_genres` method of `metafix.Track`. -/
def Track.strip_whitespace_genres (t : Track) : List String :=
  uniqueScalar (t.genres.map pyStrip)

/-- Modelled from the spec: `cleartag.Track.get_codec_setting_str(short=True)`
returns the encoder-method descriptor of one track — `"CBR"`/`"VBR"`/`"ABR"`
for MP3 streams (spec §4.1 codec aggregation; the repository's tests show
`"CBR"` for a CBR/ID3 stream, `"UNKNOWN"` for an MP4 container and `"FLAC"`
for FLAC).  LAME-preset refinements (V0 etc.) are not exercised by any claim
and are not modelled. -/
def Track.get_codec_setting_str (t : Track) (_short : Bool) : String :=
  match t.stream_info.tag_type with
  | .FLAC => "FLAC"
  | .MP4 => "UNKNOWN"
  | .ID3 =>
    match t.stream_info.mp3_method with
    | .CBR => "CBR"
    | .VBR => "VBR"
    | .ABR => "ABR"
    | .UNKNOWN => "UNKNOWN"

/-- Modelled from the spec: `cleartag.Track.get_codec()` names the container
codec of one track; `Release.validate_codec` only compares these values for
equality across tracks. -/
def Track.get_codec (t : Track) : String :=
  match t.stream_info.tag_type with
  | .ID3 => "MP3"
  | .MP4 => "MP4"
  | .FLAC => "FLAC"

/-- Modelled from the spec (§2/§3): the `cleartag.Track` comparison used by
`Release.sort` orders tracks by disc number and then track number (missing
values first). -/
def Track.ltTrack (a b : Track) : Bool :=
  let ad := a.disc_number.getD 0
  let bd := b.disc_number.getD 0
  ad < bd || (ad = bd && a.track_number.getD 0 < b.track_number.getD 0)

end Metafix

namespace Metafix

/-- Body of `normalize_str` for a truthy input string: the two `feat.`
substitutions, the disc/cd token removal and a final strip
(`functions.py` lines 42-47). -/
def normalize_str_core (s : String) : String :=
  pyStrip (runSub mDiscCd (runSub mFeatParen (runSub mFeatSpace s)))

/-- The `normalize_str` helper of `functions.py`: falsy input (Python `None`
or the empty string) yields the empty string. -/
def normalize_str (s : Option String) : String :=
  if truthyStr s then normalize_str_core (s.getD "") else ""

/-- The `normalize_track_title` helper of `functions.py`: slash spacing,
whitespace collapse, the `vs.` substitution, then `normalize_str`. -/
def normalize_track_title (s : String) : String :=
  normalize_str (some (runSub mVs (collapseWs (strReplace s "/" " / "))))

/-- The `normalize_release_title` helper of `functions.py`. -/
def normalize_release_title (s : Option String) : String :=
  normalize_str s

/-- The `normalize_artist_name` helper of `functions.py`. -/
def normalize_artist_name (s : String) : String :=
  normalize_str (some (runSub mVs s))

/-- The `flatten_artists` helper of `functions.py`: join an artist list for
display with commas and a final ampersand. -/
def flatten_artists : List String → String
  | [] => ""
  | [a] => a
  | [a, b] => a ++ " & " ++ b
  | l => myIntercalate ", " l.dropLast ++ " & " ++ l.getLastD ""

/-- Exact-match tag blacklist of `tag_filter` (`functions.py` lines 107-121). -/
def tagBlacklist : List String :=
  ["seen live", "favourites", "all", "awesome", "love", "spotify", "favorite",
   "favourite", "fun", "check out", "sexy", "amazing", "genius", "dj",
   "want to see live", "shit", "officially shit",
   "lesser known yet streamable artists", "<3", "crap",
   "bands i" ++ sq ++ "ve seen live", "seen in concert", "listen",
   "good music", "saw live", "local", "fuck off", "hipster garbage", "mp3",
   "masterpiece", "laptop", "wishlist", "cds i own", "beautiful", "epic",
   "classic", "records i own", "playlist", "cd", "cool", "great", "good",
   "own", "emusic", "i own this cd", "own it", "love at first listen",
   "underrated", "fucking awesome", "in my collection", "check",
   "my private work station", "top cd", "fav", "love it", "happy", "owned",
   "mandatory", "the best", "streamable", "collected",
   "reviewed in the guardian", "to check out", "overrated", "to buy",
   "i own", "1", "favs", "essential", "5", "music", "my music",
   "music to download"]

/-- Case-sensitive substring blacklist of `tag_filter` (line 124). -/
def tagSubstringBlacklist : List String :=
  ["artist", "bpm", "best of", "album", "favorite", "favourite", "vinyl",
   "seen ", "albun", "need"]

/-- The flattened `tag_remap` mapping built from `tag_reverse_map`
(`functions.py` lines 128-167). -/
def tagRemapPairs : List (String × String) :=
  [("crossover", "fusion"),
   ("drum " ++ sq ++ "n bass", "drum and bass"),
   ("drum " ++ sq ++ "n" ++ sq ++ " bass", "drum and bass"),
   ("drum & bass", "drum and bass"),
   ("drum n bass", "drum and bass"),
   ("drum n" ++ sq ++ " bass", "drum and bass"),
   ("drum" ++ sq ++ "n bass", "drum and bass"),
   ("drum" ++ sq ++ "n" ++ sq ++ "bass", "drum and bass"),
   ("drum&bass", "drum and bass"),
   ("drumandbass", "drum and bass"),
   ("drumm and bass", "drum and bass"),
   ("drumm n bass", "drum and bass"),
   ("drumn and bass", "drum and bass"),
   ("drumnbass", "drum and bass"),
   ("drums and base", "drum and bass"),
   ("drums and bass", "drum and bass"),
   ("dnb", "drum and bass"),
   ("d&b", "drum and bass"),
   ("hip-hop", "hip hop"),
   ("hiphop", "hip hop"),
   ("triphop", "trip-hop"),
   ("trip hop", "trip-hop")]

/-- The list of words `capitalize_tag` leaves uncapitalized
(`functions.py` line 200; the adjacent string literals `"at" "on"` in the
source concatenate to the single word `"aton"`). -/
def nonCapitalized : List String :=
  ["a", "an", "the", "and", "but", "or", "for", "nor", "in", "to", "aton",
   "by", "from", "nor", "yet", "so"]

/-- The `capitalize_tag` helper of `functions.py`. -/
def capitalize_tag (tag_str : String) : String :=
  let ws := (splitChar ' ' tag_str).map
    (fun x => if x ∈ nonCapitalized then x else pyCapitalize x)
  match ws with
  | [] => ""
  | w :: rest => myIntercalate " " (pyCapitalize w :: rest)

/-- The `tag_filter` helper of `functions.py`: reject or clean up one genre
tag. -/
def tag_filter (tag : String) (ignore_substrings : List String) (capitalize : Bool) :
    Option String :=
  if 100 < tag.length then none
  else if ignore_substrings.any
      (fun ig => strHasSub (pyLower ig) (pyLower tag) || strHasSub (pyLower tag) (pyLower ig)) then
    none
  else if pyIsdigit tag && tag.length = 4 then none
  else if pyLower tag ∈ tagBlacklist then none
  else if tagSubstringBlacklist.any (fun sub => strHasSub tag sub) then none
  else
    let tag1 := match tagRemapPairs.lookup tag with
                | some dest => dest
                | none => tag
    if capitalize then
      let tag2 := capitalize_tag tag1
      if pyLower tag2 ∈ ["av", "uk"] then some (pyUpper tag2) else some tag2
    else some tag1

/-- Insert-or-update for the ordered weight dictionaries used by
`tag_filter_all` and `__get_lastfm_tags` (Python dict assignment: an existing
key keeps its position, a new key is appended). -/
def assocSet (acc : List (String × Int)) (k : String) (v : Int) : List (String × Int) :=
  if acc.any (fun p => p.1 = k) then
    acc.map (fun p => if p.1 = k then (p.1, v) else p)
  else acc ++ [(k, v)]

/-- The `tag_filter_all` helper of `functions.py`: filter a weighted tag
dictionary, skipping a remapped tag that would lower the score of an
already-accepted one. -/
def tag_filter_all (tags : List (String × Int)) (ignore_substrings : List String)
    (capitalize : Bool) : List (String × Int) :=
  tags.foldl
    (fun accepted p =>
      match tag_filter p.1 ignore_substrings capitalize with
      | none => accepted
      | some curr =>
        if curr = "" then accepted
        else
          match accepted.lookup curr with
          | some w => if p.2 < w then accepted else assocSet accepted curr p.2
          | none => assocSet accepted curr p.2)
    []

end Metafix

namespace Metafix

/-- The release data model (spec §3): an ordered mapping filename → track
plus the category/source attributes and the `num_violations` slot set by the
validator. -/
structure Release where
  tracks : List (String × Track)
  category : ReleaseCategory
  source : ReleaseSource
  num_violations : Option Nat
deriving DecidableEq

/-- Tracks of a release in mapping order (Python `release.tracks.values()`). -/
def Release.trackVals (r : Release) : List Track := r.tracks.map Prod.snd

/-- First track of a release (Python `release.tracks[next(iter(release.tracks))]`;
Python would raise on an empty mapping, every caller below reaches this only
with at least one track). -/
def Release.firstTrack (r : Release) : Track := (r.tracks.headD ("", default)).2

/-- The `get_category_fix_name` helper of `functions.py`: strip a `web` token
and a trailing EP/Single/CDS marker from the first track's release title. -/
def get_category_fix_name (r : Release) : String × Option ReleaseCategory :=
  let clean_name := runSub mWeb (r.firstTrack.release_title.getD "")
  let lower_name := pyLower clean_name
  if strEndsWith lower_name " ep" then (pyStrip (strDropRight clean_name 3), some .EP)
  else if strEndsWith lower_name "(ep)" || strEndsWith lower_name "[ep]" ||
      strEndsWith lower_name "\x7bep\x7d" then
    (pyStrip (strDropRight clean_name 4), some .EP)
  else if strEndsWith lower_name " single" then (pyStrip (strDropRight clean_name 7), some .SINGLE)
  else if strEndsWith lower_name " cds" then (pyStrip (strDropRight clean_name 4), some .SINGLE)
  else if strEndsWith lower_name " (cds)" || strEndsWith lower_name "(cds)" ||
      strEndsWith lower_name "\x7bcds\x7d" then
    (pyStrip (strDropRight clean_name 6), some .SINGLE)
  else (clean_name, none)

/-- The category heuristic in the body of `Release.guess_category`
(`Release.py` lines 54-71): count distinct track-level artists outside the
first track's release artists and pick Single/EP/Compilation/Album.  The
division `len(self.tracks) / 2` is Python float division, so the Compilation
test `u > n / 2` is embedded as `n < 2 * u`. -/
def guessCategoryCore (r : Release) : ReleaseCategory :=
  let additional_artists :=
    (r.trackVals.map (fun t =>
      t.artists.filter (fun a => a ∉ r.firstTrack.release_artists))).flatten
  let u := (uniqueScalar additional_artists).length
  if r.tracks.length < 4 ∧ u = 1 then .SINGLE
  else if r.tracks.length < 6 ∧ u = 1 then .EP
  else if r.tracks.length < 2 * u then .COMPILATION
  else .ALBUM

/-- The `guess_category` method of `Release.py`.  Its first statement is
`if self.category: return`; since Python `Enum` members are always truthy
(`pyEnumTruthy`), the guard holds for every category — `UNKNOWN` included —
and the heuristic below it never runs. -/
def Release.guess_category (r : Release) : Release :=
  if pyEnumTruthy r.category then r
  else { r with category := guessCategoryCore r }

/-- Remove the first binding of a key (Python `del self.tracks[k]`). -/
def eraseFirstKey : List (String × Track) → String → List (String × Track)
  | [], _ => []
  | p :: rest, k => if p.1 = k then rest else p :: eraseFirstKey rest k

/-- One selection step of `Release.sort`: the first minimal track under the
strict `cleartag` comparison (later tracks replace the candidate only when
strictly smaller). -/
def findSmallest (p : String × Track) (rest : List (String × Track)) : String × Track :=
  rest.foldl (fun best q => if Track.ltTrack q.2 best.2 then q else best) p

/-- Selection-sort loop of `Release.sort` (fuel-based; each step removes the
selected key, so fuel equal to the length suffices). -/
def sortLoop : Nat → List (String × Track) → List (String × Track)
  | 0, _ => []
  | _ + 1, [] => []
  | fuel + 1, p :: rest =>
    let best := findSmallest p rest
    best :: sortLoop fuel (eraseFirstKey (p :: rest) best.1)

/-- The `sort` method of `Release.py`. -/
def Release.sortTracks (r : Release) : Release :=
  { r with tracks := sortLoop r.tracks.length r.tracks }

/-- The `Release.__init__` constructor: store the tracks and the manual
category/source, then run `guess_category` and `sort`. -/
def Release.init (tracks : List (String × Track))
    (manual_category : ReleaseCategory := .UNKNOWN)
    (manual_source : ReleaseSource := .UNKNOWN) : Release :=
  Release.sortTracks (Release.guess_category
    { tracks := tracks, category := manual_category, source := manual_source,
      num_violations := none })

/-- The `is_va` method of `Release.py`. -/
def Release.is_va (r : Release) : Bool :=
  r.category ∈ [ReleaseCategory.COMPILATION, .VIDEO_GAME_MUSIC, .MIX, .MIXTAPE, .SOUNDTRACK]

/-- The `get_release_codec_setting` method of `Release.py`: the single codec
descriptor of the release, or `""` on any mismatch.  (Python divides by a
float in the VBR branch; it is embedded with exact rounding, and a release
of zero total length, where Python would raise `ZeroDivisionError`, is not
reachable from any claim.) -/
def Release.get_release_codec_setting (r : Release) (short : Bool := true) : String :=
  let tag_types := uniqueScalar (r.trackVals.map (fun t => t.stream_info.tag_type))
  if tag_types.length ≠ 1 then ""
  else
    let codec_settings := uniqueScalar (r.trackVals.map (fun t => t.get_codec_setting_str true))
    if codec_settings.length ≠ 1 then ""
    else
      let prefix_str :=
        if short then ""
        else match tag_types.headD .ID3 with
             | .ID3 => "MP3 "
             | .MP4 => "MP4 "
             | .FLAC => ""
      if codec_settings.headD "" = "CBR" then
        let cbr_bitrates := uniqueScalar (r.trackVals.map (fun t => pyRound1000 t.stream_info.bitrate))
        if cbr_bitrates.length ≠ 1 then ""
        else
          let cbr0 := cbr_bitrates.headD 0 / 1000
          let cbr_bitrate := cbr0 + cbr0 % 2
          prefix_str ++ "CBR" ++ toString cbr_bitrate
      else if codec_settings.headD "" = "VBR" then
        let num := (r.trackVals.map (fun t => t.stream_info.bitrate * t.stream_info.length)).sum
        let den := (r.trackVals.map (fun t => t.stream_info.length)).sum * 1000
        prefix_str ++ "VBR" ++ toString (roundHalfEven num den)
      else prefix_str ++ codec_settings.headD ""

/-- The `validate_codec` method of `Release.py`. -/
def Release.validate_codec (r : Release) : Option String :=
  let codec_settings := uniqueScalar (r.trackVals.map Track.get_codec)
  if codec_settings.length = 1 then some (codec_settings.headD "") else none

/-- The `validate_release_date` method of `Release.py`: the single common
date, provided it is truthy. -/
def Release.validate_release_date (r : Release) : Option String :=
  let dates := uniqueScalar (r.trackVals.map (fun t => t.date))
  if dates.length = 1 ∧ truthyStr (dates.headD none) then dates.headD none else none

/-- The `blank_artists` method of `Release.py`. -/
def Release.blank_artists (r : Release) : Nat :=
  (r.trackVals.filter (fun t => t.artists.isEmpty)).length

/-- The `blank_track_titles` method of `Release.py`. -/
def Release.blank_track_titles (r : Release) : Nat :=
  (r.trackVals.filter (fun t => !truthyStr t.track_title)).length

/-- The `validate_release_artists` method of `Release.py`: the release-artist
lists of all tracks must collapse to one under `unique` (which compares lists
by their sorted contents); the result is that list, deduplicated. -/
def Release.validate_release_artists (r : Release) : List String :=
  let release_artists := uniqueSortedKey (r.trackVals.map (fun t => t.release_artists))
  if release_artists.length = 1 then uniqueScalar (release_artists.headD []) else []

/-- The `extract_release_artist` method of `Release.py`. -/
def Release.extract_release_artist (r : Release) : List String :=
  let artists := uniqueSortedKey (r.trackVals.map (fun t => t.artists))
  if artists.length = 1 then artists.headD [] else []

/-- The `validate_release_title` method of `Release.py`: the single common
release title, retried on normalized titles. -/
def Release.validate_release_title (r : Release) : Option String :=
  let release_titles := uniqueScalar (r.trackVals.map (fun t => t.release_title))
  if release_titles.length = 1 ∧ release_titles.headD none ≠ some "" then
    release_titles.headD none
  else
    let normalized := uniqueScalar (r.trackVals.map (fun t => normalize_release_title t.release_title))
    if normalized.length = 1 ∧ normalized.headD "" ≠ "" then some (normalized.headD "")
    else none

/-- One loop iteration of `__get_disc_numbers_by_track`: register the track's
disc (missing or zero defaulting to 1) and append its truthy track number. -/
def gStep (acc : List (Nat × List Nat)) (t : Track) : List (Nat × List Nat) :=
  let d := pyOr1 t.disc_number
  let acc1 := if acc.any (fun p => p.1 = d) then acc else acc ++ [(d, [])]
  if truthyNat t.track_number then
    acc1.map (fun p => if p.1 = d then (p.1, p.2 ++ [t.track_number.getD 0]) else p)
  else acc1

/-- The private `__get_disc_numbers_by_track` method of `Release.py`: group
track numbers by disc, sort each disc's numbers, and sort the discs. -/
def Release.disc_numbers_by_track (r : Release) : List (Nat × List Nat) :=
  let track_numbers := r.trackVals.foldl gStep []
  let track_numbers := track_numbers.map (fun p => (p.1, pySortNat p.2))
  List.insertionSort (fun a b => a.1 ≤ b.1) track_numbers

/-- Adjacent-increment check shared by the numbering validations: every
element is one less than its successor (`l[i] != l[i+1] - 1` in Python,
embedded over `Int` to keep the `-1` exact). -/
def adjSeqOk : List Nat → Bool
  | a :: b :: t => ((a : Int) == (b : Int) - 1) && adjSeqOk (b :: t)
  | _ => true

/-- The `validate_track_numbers` method of `Release.py`: empty result when
every disc carries the complete run `1..n`, otherwise the whole grouping. -/
def Release.validate_track_numbers (r : Release) : List (Nat × List Nat) :=
  let track_numbers := r.disc_numbers_by_track
  let all_tracks_present :=
    track_numbers.all (fun p => !p.2.isEmpty && p.2.headD 0 == 1 && adjSeqOk p.2)
  if all_tracks_present then [] else track_numbers

/-- Renumbering loop of `resequence_track_numbers` (`Release.py` lines
356-364), carried out in mapping order with the running disc compared
against the track's possibly missing disc number. -/
def reseqLoop : Nat → Option Nat → List (String × Track) → List (String × Track)
  | _, _, [] => []
  | curr_track, curr_disc, (f, t) :: rest =>
    let reset := curr_disc ≠ t.disc_number
    let ct := if reset then 1 else curr_track
    let cd := if reset then t.disc_number else curr_disc
    (f, { t with track_number := some ct }) :: reseqLoop (ct + 1) cd rest

/-- The `resequence_track_numbers` method of `Release.py`: renumber per disc
only when the per-disc numbering is invalid but the disc run is complete and
the numbers flattened across discs form one continuous run from 1. -/
def Release.resequence_track_numbers (r : Release) : Release :=
  let track_numbers := r.validate_track_numbers
  if track_numbers.isEmpty then r
  else
    let disc_nums := track_numbers.map Prod.fst
    if disc_nums.headD 0 ≠ 1 then r
    else if !adjSeqOk disc_nums then r
    else
      let flat := (track_numbers.map Prod.snd).flatten
      if flat.isEmpty ∨ flat.headD 0 ≠ 1 then r
      else if !adjSeqOk flat then r
      else { r with tracks := reseqLoop 1 (some 1) r.tracks }

/-- The `get_total_tracks` method of `Release.py`: per disc, the track count
when the disc's numbers increase by exactly one (note: without requiring the
run to start at 1), else `None`. -/
def Release.get_total_tracks (r : Release) : List (Nat × Option Nat) :=
  r.disc_numbers_by_track.map
    (fun p => (p.1, if adjSeqOk p.2 then some p.2.length else none))

/-- One grouping step of `validate_total_tracks` (keyed by the raw, possibly
missing disc number). -/
def ttStep (acc : List (Option Nat × List (Option Nat))) (t : Track) :
    List (Option Nat × List (Option Nat)) :=
  let acc1 := if acc.any (fun p => p.1 = t.disc_number) then acc
              else acc ++ [(t.disc_number, [])]
  acc1.map (fun p => if p.1 = t.disc_number then (p.1, p.2 ++ [t.total_tracks]) else p)

/-- The `validate_total_tracks` method of `Release.py`: discs whose
`total_tracks` tags are not a single value equal to the disc's track count. -/
def Release.validate_total_tracks (r : Release) : List (Option Nat) :=
  (r.trackVals.foldl ttStep []).foldl
    (fun violating p =>
      let curr_disc := uniqueScalar p.2
      let bad :=
        curr_disc.length != 1 ||
        (match curr_disc.headD none with
         | some v => p.2.length != v
         | none => true)
      if bad then violating ++ [p.1] else violating) []

/-- The `validate_disc_numbers` method of `Release.py`: empty when the disc
numbers present form the complete run `1..n`, else the sorted disc list. -/
def Release.validate_disc_numbers (r : Release) : List Nat :=
  let track_numbers := r.disc_numbers_by_track
  if track_numbers.isEmpty then []
  else
    let disc_numbers := pySortNat (track_numbers.map Prod.fst)
    if disc_numbers.headD 0 == 1 && adjSeqOk disc_numbers then [] else disc_numbers

/-- The `validate_total_discs` method of `Release.py`: a single `total_discs`
value across all tracks that equals the highest disc number present
(a `None` value compares unequal to any integer, as in Python). -/
def Release.validate_total_discs (r : Release) : Bool :=
  let disc_numbers := pySortNat (r.disc_numbers_by_track.map Prod.fst)
  let total_discs := uniqueScalar (r.trackVals.map (fun t => t.total_discs))
  total_discs.length == 1 && !disc_numbers.isEmpty &&
    (match total_discs.headD none with
     | some v => v == disc_numbers.getLastD 0
     | none => false)

/-- The `get_total_discs` method of `Release.py`: the highest disc number
when the non-`None` disc numbers form a gapless run from 1. -/
def Release.get_total_discs (r : Release) : Option Nat :=
  let disc_numbers := pySortNat (uniqueScalar (r.trackVals.filterMap (fun t => t.disc_number)))
  if disc_numbers.isEmpty ∨ disc_numbers.headD 0 ≠ 1 then none
  else if !adjSeqOk disc_numbers then none
  else some (disc_numbers.getLastD 0)

/-- The `validate_genres` method of `Release.py`. -/
def Release.validate_genres (r : Release) : List String :=
  let genres := uniqueSortedKey (r.trackVals.map (fun t => t.genres))
  if genres.length = 1 then genres.headD [] else []

/-- The `get_tag_types` method of `Release.py`. -/
def Release.get_tag_types (r : Release) : List TagType :=
  uniqueScalar (r.trackVals.map (fun t => t.stream_info.tag_type))

/-- The `get_codecs` method of `Release.py`. -/
def Release.get_codecs (r : Release) : List String :=
  uniqueScalar (r.trackVals.map (fun t => t.get_codec_setting_str true))

/-- The `get_cbr_bitrates` method of `Release.py`. -/
def Release.get_cbr_bitrates (r : Release) : List Nat :=
  let codecs := r.get_codecs
  if (if codecs.length = 1 then codecs.headD "" else "") = "CBR" then
    uniqueScalar (r.trackVals.map (fun t => t.stream_info.bitrate))
  else []

/-- Modelled from the spec (§4.1): the external `cleartag`
`normalize_path_chars` substitutes the path-unsafe characters `:` and `/`
with full-width look-alikes. -/
def normalize_path_chars (s : String) : String :=
  strReplace (strReplace s ":" "：") "/" "／"

/-- The `get_folder_name` method of `Release.py`: derived folder name, with
the four leading `assert` statements embedded as `none` results. -/
def Release.get_folder_name (r : Release) (codec_short : Bool := true)
    (group_by_category : Bool := false) : Option String :=
  if !truthyStr r.validate_release_date then none
  else if !truthyStr r.validate_release_title then none
  else if r.validate_release_artists.isEmpty then none
  else if !truthyStr r.validate_codec then none
  else
    let track1 := r.firstTrack
    let release_name := (get_category_fix_name r).1
    let release_artist := flatten_artists track1.release_artists
    let year := strTakeUntil '-' (track1.date.getD "")
    let release_category_str :=
      if r.category ≠ ReleaseCategory.ALBUM then "[" ++ r.category.value ++ "] " else ""
    let release_source_str :=
      if r.source ≠ ReleaseSource.CD then "[" ++ r.source.value ++ "] " else ""
    let title_first :=
      r.category ∈ [ReleaseCategory.COMPILATION, .MIX, .MIXTAPE, .VIDEO_GAME_MUSIC, .SOUNDTRACK]
    let codec := r.get_release_codec_setting codec_short
    if group_by_category = false ∧ title_first then
      some (normalize_path_chars
        ("VA - " ++ release_name ++ " - " ++ year ++ " - " ++ release_artist ++ " " ++
         release_category_str ++ release_source_str ++ "[" ++ codec ++ "]"))
    else if title_first then
      some (normalize_path_chars
        (release_name ++ " - " ++ year ++ " - " ++ release_artist ++ " " ++
         release_category_str ++ release_source_str ++ "[" ++ codec ++ "]"))
    else
      some (normalize_path_chars
        (release_artist ++ " - " ++ year ++ " - " ++ release_name ++ " " ++
         release_category_str ++ release_source_str ++ "[" ++ codec ++ "]"))

end Metafix

namespace Metafix

/-- Oracle artist record (`lastfmcache` artist: canonical name plus weighted
genre tags). -/
structure LastfmArtist where
  artist_name : String
  tags : List (String × Int)
deriving DecidableEq

/-- Oracle release-track record. -/
structure LastfmTrack where
  track_name : String
deriving DecidableEq

/-- Oracle release record (`lastfmcache` release): canonical title, date,
track map keyed by track number, weighted genre tags. -/
structure LastfmRelease where
  release_name : String
  release_date : Option String
  tracks : List (Nat × LastfmTrack)
  tags : List (String × Int)
deriving DecidableEq

/-- The metadata oracle, modelled as stable pure lookups (spec §5/§6):
`none` is a permanent not-found error.  Transient errors are retried forever
by the code and therefore never terminate against a stable always-transient
oracle; the fatal upgrade error exits the process.  Neither is reachable in
this stable-oracle model. -/
structure Oracle where
  get_artist : String → Option LastfmArtist
  get_release : String → String → Option LastfmRelease

/-- The `ReleaseValidator` object state: optional oracle client, forbidden
comment substrings (stored lowercased by `add_forbidden_comment_substring`),
and the track-title validation toggle. -/
structure ReleaseValidator where
  lastfm : Option Oracle
  forbidden_comment_substrings : List String := []
  lastfm_track_title_validation : Bool := true

/-- The private `__get_lastfm_tags` method of `ReleaseValidator.py`: filtered
release-level tags, falling back to a weighted aggregation of artist-level
tags.  `none` models an uncaught oracle not-found error escaping the method
(`get_release` / `get_artist` are called here without a `try`). -/
def ReleaseValidator.get_lastfm_tags (v : ReleaseValidator) (release_title : String)
    (release_artists : List String) : Option (List String) :=
  match v.lastfm with
  | none => none
  | some o =>
    let flattened_artist := flatten_artists release_artists
    match o.get_release flattened_artist release_title with
    | none => none
    | some lastfm_release =>
      let lastfm_tags :=
        (tag_filter_all lastfm_release.tags (release_artists ++ [release_title]) true).map Prod.fst
      if lastfm_tags.isEmpty then
        let filtered_artists := release_artists.filter
          (fun x => pyLower x ∉ ["various artist", "various artists", "va"])
        match filtered_artists.mapM (fun artist => o.get_artist artist) with
        | none => none
        | some artist_infos =>
          let weighted_tags := artist_infos.foldl
            (fun w ai => ai.tags.foldl
              (fun w p =>
                match w.lookup p.1 with
                | some existing => if existing < p.2 then assocSet w p.1 p.2 else w
                | none => assocSet w p.1 p.2) w) []
          some ((tag_filter_all weighted_tags (filtered_artists ++ [release_title]) true).map Prod.fst)
      else some lastfm_tags

/-- The private `__fix_whitespace` pass of `fix`. -/
def fixWhitespace (r : Release) : Release :=
  { r with tracks := r.tracks.map (fun p =>
      (p.1, { p.2 with
              artists := p.2.strip_whitespace_artists,
              release_artists := p.2.strip_whitespace_release_artists,
              date := p.2.strip_whitespace_date,
              release_title := p.2.strip_whitespace_release_title,
              track_title := p.2.strip_whitespace_track_title,
              genres := p.2.strip_whitespace_genres })) }

/-- The private `__extract_track_disc_numbers_from_filenames` pass of `fix`:
fill (or, when the existing numbering is already invalid, overwrite) track
and disc numbers from filename digit patterns. -/
def extractTrackDiscFromFilenames (r : Release) : Release :=
  let validated_track_numbers := r.validate_track_numbers
  let validated_disc_numbers := r.validate_disc_numbers
  { r with tracks := r.tracks.map (fun p =>
      let path := p.1
      let t := p.2
      let td := extract_track_disc (pathTail path)
      let track_num := td.1
      let disc_num := td.2
      let t1 :=
        if (!truthyNat t.track_number && truthyNat track_num) ||
            !validated_track_numbers.isEmpty then
          let ta := { t with track_number := track_num }
          if !validated_track_numbers.isEmpty && truthyNat disc_num then
            { ta with disc_number := disc_num }
          else ta
        else t
      let t2 :=
        if (!truthyNat t1.disc_number && truthyNat disc_num) ||
            !validated_disc_numbers.isEmpty then
          { t1 with disc_number := disc_num }
        else t1
      (path, t2)) }

/-- The private `__extract_year_from_folder_name` pass of `fix`. -/
def extractYearFromFolderName (r : Release) (folder_name : String) (currentYear : Nat) : Release :=
  let extracted_year := extract_release_year folder_name currentYear
  if !truthyStr r.validate_release_date && truthyNat extracted_year then
    { r with tracks := r.tracks.map (fun p =>
        (p.1, { p.2 with date := some (toString (extracted_year.getD 0)) })) }
  else r

/-- The private `__extract_disc_numbers_from_folder_name` pass of `fix`. -/
def extractDiscNumbersFromFolderName (r : Release) : Release :=
  { r with tracks := r.tracks.map (fun p =>
      if !truthyNat p.2.disc_number then
        match firstDiscToken (pathHead p.1).data.length (pathHead p.1).data with
        | some d => (p.1, { p.2 with disc_number := some d })
        | none => p
      else p) }

/-- The private `__normalize_track_titles` pass of `fix`. -/
def normalizeTrackTitles (r : Release) : Release :=
  { r with tracks := r.tracks.map (fun p =>
      if truthyStr p.2.track_title then
        let normalized_title := normalize_track_title (p.2.track_title.getD "")
        if pyLower (p.2.track_title.getD "") ≠ pyLower normalized_title then
          (p.1, { p.2 with track_title := some normalized_title })
        else p
      else p) }

/-- The private `__normalize_release_artists` helper of `fix` (read-only). -/
def normalizeReleaseArtists (r : Release) : List String :=
  let release_artists := r.validate_release_artists
  if release_artists.isEmpty then r.extract_release_artist else release_artists

/-- The private `__lastfm_release_artists` pass of `fix`: resolve the release
artists through the oracle, overwriting every track's release artists only
when all of them resolved. -/
def lastfmReleaseArtists (v : ReleaseValidator) (r : Release) (release_artists : List String) :
    Release × List String :=
  match v.lastfm with
  | none => (r, [])
  | some o =>
    if release_artists.isEmpty then (r, [])
    else
      let validated_release_artists := release_artists.filterMap
        (fun artist => (o.get_artist artist).map (fun a => a.artist_name))
      let r1 :=
        if validated_release_artists.length = release_artists.length then
          { r with tracks := r.tracks.map (fun p =>
              (p.1, { p.2 with release_artists := validated_release_artists })) }
        else r
      (r1, validated_release_artists)

/-- The private `__fix_release_title` pass of `fix`: strip trailing CD/CDS/CDM
stubs and bracketed or trailing source/category tokens from the common
release title, then write it to every track. -/
def fixReleaseTitle (r : Release) : Release :=
  match r.validate_release_title with
  | none => r
  | some rt0 =>
    if rt0 = "" then r
    else
      let rt1 := ["CD", "CDS", "CDM"].foldl
        (fun title stub =>
          if strEndsWith title (" " ++ stub) then strDropRight title (stub.length + 1) else title) rt0
      let brackets : List (String × String) := [("[", "]"), ("(", ")"), ("\x7b", "\x7d")]
      let rt2 := releaseSources.foldl
        (fun title src => brackets.foldl
          (fun title br => subLitOptSpace (br.1 ++ src.value ++ br.2) title) title) rt1
      let rt3 := releaseSources.foldl (fun title src => stripTrailingPy src.value title) rt2
      let rt4 := releaseCategories.foldl
        (fun title cat => brackets.foldl
          (fun title br => subLitOptSpace (br.1 ++ cat.value ++ br.2) title) title) rt3
      let rt5 := (releaseCategories.filter (fun c => c ≠ ReleaseCategory.ALBUM)).foldl
        (fun title cat => stripTrailingPy cat.value title) rt4
      { r with tracks := r.tracks.map (fun p =>
          if p.2.release_title ≠ some rt5 then (p.1, { p.2 with release_title := some rt5 })
          else p) }

/-- The private `__lastfm_can_fix_release_title` guard of
`ReleaseValidator.py`. -/
def lastfmCanFixReleaseTitle (release_title fixed_title : String) : Bool :=
  if pyIslower fixed_title && !pyIslower release_title then false
  else if ["fabric"].any (fun substr => strHasSub (pyLower release_title) (pyLower substr)) then
    false
  else true

/-- Track-number filling loop of `__lastfm_release_fixes` (lines 633-642):
a track without a truthy number receives the unique oracle track number whose
normalized title matches, provided no track currently carries that number.
`none` models the `AttributeError` Python raises when a number-less track has
a `None` title. -/
def fillTrackNumsLoop (lr : LastfmRelease) :
    List (String × Track) → List (String × Track) → Option (List (String × Track))
  | done, [] => some done
  | done, (f, t) :: rest =>
    if truthyNat t.track_number then fillTrackNumsLoop lr (done ++ [(f, t)]) rest
    else
      match t.track_title with
      | none => none
      | some title =>
        let track_num_matches := lr.tracks.filterMap (fun q =>
          if pyLower (normalize_track_title q.2.track_name) =
              pyLower (normalize_track_title title) then some q.1 else none)
        let m := track_num_matches.headD 0
        if !track_num_matches.isEmpty ∧ track_num_matches.length = 1 ∧
            ((done ++ [(f, t)] ++ rest).all (fun q => q.2.track_number ≠ some m)) then
          fillTrackNumsLoop lr (done ++ [(f, { t with track_number := some m })]) rest
        else fillTrackNumsLoop lr (done ++ [(f, t)]) rest

/-- Track-title acceptance step of `__lastfm_release_fixes` (lines 645-659):
accept the oracle's normalized title for a blank title when the numbering is
valid, or on a case-insensitive match when the local title is lowercase.
`none` models the `AttributeError` Python raises by calling `islower()` on a
`None` title when the numbering is invalid. -/
def acceptTitle (lr : LastfmRelease) (track_numbers_validated : Bool) (t : Track) : Option Track :=
  match t.track_number with
  | none => some t
  | some n =>
    match lr.tracks.lookup n with
    | none => some t
    | some ltr =>
      let lastfm_title := normalize_track_title ltr.track_name
      if t.track_title ≠ some lastfm_title then
        match t.track_title with
        | none =>
          if track_numbers_validated then some { t with track_title := some lastfm_title }
          else none
        | some s =>
          if (s = "" ∧ track_numbers_validated) ∨
              (pyIslower s ∧ pyLower s = pyLower lastfm_title) then
            some { t with track_title := some lastfm_title }
          else if pyLower s = pyLower lastfm_title ∧ pyLower s = s then
            some { t with track_title := some lastfm_title }
          else some t
      else some t

/-- Release-artist overwrite at the top of `__lastfm_release_fixes`
(lines 602-604). -/
def lrfArtistsPass (release_artists : List String) (r : Release) : Release :=
  if !release_artists.isEmpty then
    { r with tracks := r.tracks.map (fun p =>
        (p.1, { p.2 with release_artists := release_artists })) }
  else r

/-- Release-title rewrite of `__lastfm_release_fixes` (lines 609-617). -/
def lrfTitlePass (lr : LastfmRelease) (release_title release_edition : String)
    (r : Release) : Release :=
  if lr.release_name ≠ release_title &&
      lastfmCanFixReleaseTitle release_title lr.release_name then
    let release_title_full :=
      if release_edition ≠ "" then lr.release_name ++ " " ++ release_edition
      else lr.release_name
    { r with tracks := r.tracks.map (fun p =>
        (p.1, { p.2 with release_title := some release_title_full })) }
  else r

/-- Date overwrite of `__lastfm_release_fixes` (lines 619-623): whenever the
oracle supplied a (truthy) date, every track whose date differs receives it. -/
def lrfDatePass (lr : LastfmRelease) (r : Release) : Release :=
  if truthyStr lr.release_date then
    { r with tracks := r.tracks.map (fun p =>
        if truthyStr lr.release_date ∧ lr.release_date ≠ p.2.date then
          (p.1, { p.2 with date := lr.release_date })
        else p) }
  else r

/-- Genre overwrite of `__lastfm_release_fixes` (lines 625-630). -/
def lrfGenresPass (release_genres lastfm_tags : List String) (r : Release) : Release :=
  if release_genres.length < 2 ∧ 2 ≤ lastfm_tags.length then
    { r with tracks := r.tracks.map (fun p => (p.1, { p.2 with genres := lastfm_tags })) }
  else r

/-- The private `__lastfm_release_fixes` method of `ReleaseValidator.py`:
overwrite release artists, then (when the oracle found the release) title,
dates, genres, missing track numbers and track titles. -/
def ReleaseValidator.lastfm_release_fixes (v : ReleaseValidator) (r0 : Release)
    (lastfm_release : Option LastfmRelease) (release_artists : List String)
    (release_title : String) (release_edition : String) : Option Release :=
  let r := lrfArtistsPass release_artists r0
  match lastfm_release with
  | none => some r
  | some lr =>
    let r := lrfTitlePass lr release_title release_edition r
    let r := lrfDatePass lr r
    let release_genres := r.validate_genres
    match v.get_lastfm_tags release_title release_artists with
    | none => none
    | some lastfm_tags =>
      let r := lrfGenresPass release_genres lastfm_tags r
      match fillTrackNumsLoop lr [] r.tracks with
      | none => none
      | some filled =>
        let r := { r with tracks := filled }
        let track_numbers_validated := r.validate_track_numbers.isEmpty
        match r.tracks.mapM (fun p =>
            (acceptTitle lr track_numbers_validated p.2).map (fun t2 => (p.1, t2))) with
        | none => none
        | some retitled => some { r with tracks := retitled }

/-- Per-artist resolution loop of `__lastfm_fix_track_artists`: a resolved
artist contributes its canonical name, a not-found artist contributes itself
(the `except ArtistNotFoundError` branch appends the original). -/
def artistLoop (o : Oracle) : List String → List String
  | [] => []
  | a :: rest =>
    (match o.get_artist (normalize_artist_name a) with
     | some la => la.artist_name
     | none => a) :: artistLoop o rest

/-- The private `__lastfm_fix_track_artists` pass of `fix`: every track's
artist list is rebuilt per artist and always written back. -/
def lastfmFixTrackArtists (o : Oracle) (r : Release) : Release :=
  { r with tracks := r.tracks.map (fun p =>
      (p.1, { p.2 with artists := artistLoop o p.2.artists })) }

/-- The private `__lastfm_fix_release_artists` pass of `fix`: not-found
artists are dropped from the rebuilt list, and the list is written back only
when its length equals the length of the track's `artists` list (the
comparison in the source reads `track.artists`, not `track.release_artists`). -/
def lastfmFixReleaseArtists (o : Oracle) (r : Release) : Release :=
  { r with tracks := r.tracks.map (fun p =>
      let validated_artists := p.2.release_artists.filterMap
        (fun a => (o.get_artist (normalize_artist_name a)).map (fun la => la.artist_name))
      if validated_artists.length = p.2.artists.length then
        (p.1, { p.2 with release_artists := validated_artists })
      else p) }

/-- The private `__lastfm_fixes` method of `ReleaseValidator.py`. -/
def ReleaseValidator.lastfm_fixes (v : ReleaseValidator) (r : Release)
    (release_artists : List String) : Option Release :=
  let release_title := r.validate_release_title
  match v.lastfm with
  | none => some r
  | some o =>
    if release_artists.isEmpty ∨ !truthyStr release_title then some r
    else
      let split := split_release_title (normalize_release_title release_title)
      let flattened_artist := flatten_artists release_artists
      let lastfm_release := o.get_release flattened_artist split.1
      match v.lastfm_release_fixes r lastfm_release release_artists split.1 split.2 with
      | none => none
      | some r1 => some (lastfmFixReleaseArtists o (lastfmFixTrackArtists o r1))

/-- The private `__fix_missing_total_tracks` pass of `fix`. -/
def fixMissingTotalTracks (r : Release) : Release :=
  let validated_disc_numbers := r.get_total_tracks
  { r with tracks := r.tracks.map (fun p =>
      let disc_number := if truthyNat p.2.disc_number then p.2.disc_number.getD 0 else 1
      match validated_disc_numbers.lookup disc_number with
      | some (some n) => if n ≠ 0 then (p.1, { p.2 with total_tracks := some n }) else p
      | _ => p) }

/-- The private `__disc_number_best_guess` pass of `fix`. -/
def discNumberBestGuess (r : Release) : Release :=
  let validated_disc_numbers := r.get_total_tracks
  if !r.validate_total_discs && validated_disc_numbers.length = 1 then
    { r with tracks := r.tracks.map (fun p => (p.1, { p.2 with disc_number := some 1 })) }
  else r

/-- The private `__fix_missing_total_discs` pass of `fix`. -/
def fixMissingTotalDiscs (r : Release) : Release :=
  if !r.validate_total_discs then
    match r.get_total_discs with
    | some total_discs =>
      if total_discs ≠ 0 then
        { r with tracks := r.tracks.map (fun p => (p.1, { p.2 with total_discs := some total_discs })) }
      else r
    | none => r
  else r

/-- Comment-substring loop of `__fix_forbidden_comment_substrings`: after the
comment is nulled, a further iteration calls `.lower()` on `None` and raises
(`none` result). -/
def commentLoop : List String → Option String → Option (Option String)
  | [], c => some c
  | s :: rest, c =>
    match c with
    | some cs => if strHasSub (pyLower cs) s then commentLoop rest none else commentLoop rest (some cs)
    | none => none

/-- The private `__fix_forbidden_comment_substrings` pass of `fix`. -/
def ReleaseValidator.fix_forbidden_comment_substrings (v : ReleaseValidator) (r : Release) :
    Option Release :=
  (r.tracks.mapM (fun p =>
      if truthyStr p.2.comment then
        (commentLoop v.forbidden_comment_substrings p.2.comment).map
          (fun c => (p.1, { p.2 with comment := c }))
      else some p)).map
    (fun ts => { r with tracks := ts })

/-- The `fix` method of `ReleaseValidator.py` (spec §4.3): deep-copy the
input release and run the seventeen-step correction pipeline on the copy.
The deep copy is the identity on the embedded value; `currentYear` makes the
`datetime.date.today()` reading of `extract_release_year` explicit.  A `none`
result models an uncaught Python exception escaping `fix`. -/
def ReleaseValidator.fix (v : ReleaseValidator) (release_in : Release) (folder_name : String)
    (currentYear : Nat) : Option Release :=
  let release := release_in
  let release := fixWhitespace release
  let release := extractTrackDiscFromFilenames release
  let release := extractYearFromFolderName release folder_name currentYear
  let release := extractDiscNumbersFromFolderName release
  let release := normalizeTrackTitles release
  let release_artists := normalizeReleaseArtists release
  let step7 := lastfmReleaseArtists v release release_artists
  let release := fixReleaseTitle step7.1
  match v.lastfm_fixes release step7.2 with
  | none => none
  | some release =>
    let release := release.resequence_track_numbers
    let release := fixMissingTotalTracks release
    let release := discNumberBestGuess release
    let release := fixMissingTotalDiscs release
    v.fix_forbidden_comment_substrings release

/-- Observable frame of one Python call `validator.fix(release_in, folder)`:
the first component is the caller's `release_in` object after the call, the
second the returned release.  The method's first statement deep-copies
`release_in` and every subsequent statement mutates only the copy, so the
caller's object is returned untouched. -/
def ReleaseValidator.fixCall (v : ReleaseValidator) (release_in : Release)
    (folder_name : String) (currentYear : Nat) : Release × Option Release :=
  (release_in, v.fix release_in folder_name currentYear)

end Metafix

namespace Metafix

/-- Python `str(x)` for the optional values interpolated into violation
messages (`None` prints as `"None"`). -/
def pyStrOfOptStr : Option String → String
  | none => "None"
  | some s => s

/-- Python `str(x)` for optional integers in violation messages. -/
def pyStrOfOptNat : Option Nat → String
  | none => "None"
  | some n => toString n

/-- Python `str(tag_type)` on the modelled `cleartag` enum. -/
def TagType.pyStr : TagType → String
  | .ID3 => "TagType.ID3"
  | .MP4 => "TagType.MP4"
  | .FLAC => "TagType.FLAC"

/-- Whitespace violations of `validate` (lines 36-75): one rule group per
field, each scanning all tracks in order. -/
def whitespaceViolations (r : Release) : List Violation :=
  (r.tracks.filterMap (fun p =>
    if p.2.artists ≠ p.2.strip_whitespace_artists then
      some ⟨.ARTIST_WHITESPACE,
        "File " ++ sq ++ p.1 ++ sq ++ " has leading/trailing whitespace in its Artist(s)"⟩
    else none)) ++
  (r.tracks.filterMap (fun p =>
    if p.2.release_artists ≠ p.2.strip_whitespace_release_artists then
      some ⟨.RELEASE_ARTIST_WHITESPACE,
        "File " ++ sq ++ p.1 ++ sq ++ " has leading/trailing whitespace in its Album/Release Artist(s)"⟩
    else none)) ++
  (r.tracks.filterMap (fun p =>
    if p.2.date ≠ p.2.strip_whitespace_date then
      some ⟨.DATE_WHITESPACE,
        "File " ++ sq ++ p.1 ++ sq ++ " has leading/trailing whitespace in its Year/Date"⟩
    else none)) ++
  (r.tracks.filterMap (fun p =>
    if p.2.release_title ≠ p.2.strip_whitespace_release_title then
      some ⟨.RELEASE_TITLE_WHITESPACE,
        "File " ++ sq ++ p.1 ++ sq ++ " has leading/trailing whitespace in its Album/Release Title"⟩
    else none)) ++
  (r.tracks.filterMap (fun p =>
    if p.2.track_title ≠ p.2.strip_whitespace_track_title then
      some ⟨.TRACK_TITLE_WHITESPACE,
        "File " ++ sq ++ p.1 ++ sq ++ " has leading/trailing whitespace in its Track Title"⟩
    else none)) ++
  (r.tracks.filterMap (fun p =>
    if p.2.genres ≠ p.2.strip_whitespace_genres then
      some ⟨.GENRE_WHITESPACE,
        "File " ++ sq ++ p.1 ++ sq ++ " has leading/trailing whitespace in its Genre(s)"⟩
    else none))

/-- Release-title source/category hygiene checks of `validate`
(lines 127-156). -/
def titleHygieneViolations (release_title : String) : List Violation :=
  let brackets : List (String × String) := [("[", "]"), ("(", ")"), ("\x7b", "\x7d")]
  (releaseSources.map (fun source =>
    brackets.filterMap (fun br =>
      let curr_source := br.1 ++ source.value ++ br.2
      if strHasSub (pyLower release_title) (pyLower curr_source) then
        some (Violation.mk .RELEASE_TITLE_SOURCE
          ("Release title contains source " ++ curr_source))
      else none))).flatten ++
  (releaseSources.filterMap (fun source =>
    if strEndsWith (pyLower release_title) (" " ++ pyLower source.value) then
      some (Violation.mk .RELEASE_TITLE_SOURCE
        ("Release title ends with source " ++ source.value))
    else none)) ++
  (releaseCategories.map (fun category =>
    brackets.filterMap (fun br =>
      let curr_category := br.1 ++ category.value ++ br.2
      if strHasSub (pyLower release_title) (pyLower curr_category) then
        some (Violation.mk .RELEASE_TITLE_CATEGORY
          ("Release title contains category " ++ curr_category))
      else none))).flatten ++
  ((releaseCategories.filter (fun c => c ≠ ReleaseCategory.ALBUM)).filterMap (fun category =>
    if strEndsWith (pyLower release_title) (" " ++ pyLower category.value) then
      some (Violation.mk .RELEASE_TITLE_CATEGORY
        ("Release title ends with category " ++ category.value))
    else none))

/-- Release-artist oracle check of `validate` (lines 102-119): returns the
violations and the validated artist list. -/
def validateReleaseArtistsLastfm (o : Oracle) (release_artists : List String) :
    List Violation × List String :=
  release_artists.foldl
    (fun acc artist =>
      match o.get_artist (pyStrip artist) with
      | some la =>
        let vios :=
          if la.artist_name ≠ artist then
            acc.1 ++ [⟨.RELEASE_ARTIST_SPELLING,
              "Incorrectly spelled Album/Release Artist " ++ sq ++ artist ++ sq ++
              " (should be " ++ sq ++ la.artist_name ++ sq ++ ")"⟩]
          else acc.1
        (vios, acc.2 ++ [la.artist_name])
      | none =>
        (acc.1 ++ [⟨.ARTIST_LOOKUP,
          "Lookup failed of release artist " ++ sq ++ pyStrip artist ++ sq⟩], acc.2))
    ([], [])

/-- Per-track artist-spelling sweep of `validate` (lines 210-244), used for
both the track-level and the release-level artist lists. -/
def artistSpellingViolations (o : Oracle) (kind : ViolationType) (label : String)
    (artistsOf : Track → List String) (r : Release) : List Violation :=
  (r.trackVals.map (fun t =>
    (artistsOf t).filterMap (fun artist =>
      match o.get_artist (normalize_artist_name artist) with
      | some la =>
        if la.artist_name ≠ artist then
          some ⟨kind,
            "Incorrectly spelled " ++ label ++ " " ++ sq ++ artist ++ sq ++
            " (should be " ++ sq ++ la.artist_name ++ sq ++ ")"⟩
        else none
      | none => none))).flatten

/-- The `validate` method of `ReleaseValidator.py` (spec §4.2): the ordered
violation list plus the release with `num_violations` set.  The violations
container in the source is an `OrderedSet`, but `Violation` defines neither
`__eq__` nor `__hash__`, so membership is object identity and every freshly
constructed violation is added — the embedding therefore appends
unconditionally.  `get_filename` is the external Track-naming collaborator
(spec §6); a `none` result models an uncaught oracle error escaping
`__get_lastfm_tags`. -/
def ReleaseValidator.validate (v : ReleaseValidator) (r : Release)
    (get_filename : Track → Bool → Option String) : Option (List Violation × Release) :=
  let vios := whitespaceViolations r
  let vios := vios ++
    (if !truthyStr r.validate_release_date then
      [⟨.DATE_INCONSISTENT,
        "Release contains blank or inconsistent " ++ sq ++ "Date" ++ sq ++ " tags"⟩]
     else [])
  let vios := vios ++
    (if r.blank_artists ≠ 0 then
      [⟨.ARTIST_BLANK,
        "Release contains " ++ toString r.blank_artists ++ " tracks with missing " ++
        sq ++ "Artist" ++ sq ++ " tags"⟩]
     else [])
  let vios := vios ++
    (if r.blank_track_titles ≠ 0 then
      [⟨.TRACK_TITLE_BLANK,
        "Release contains " ++ toString r.blank_track_titles ++ " tracks with missing " ++
        sq ++ "Track Title" ++ sq ++ " tags"⟩]
     else [])
  let release_artists := r.validate_release_artists
  let vios := vios ++
    (if release_artists.isEmpty then
      [⟨.RELEASE_ARTIST_INCONSISTENT,
        "Release contains blank or inconsistent " ++ sq ++ "Album/Release Artist" ++ sq ++ " tags"⟩]
     else [])
  let lastfmArtists :=
    match v.lastfm with
    | some o =>
      if release_artists.length = 1 then some (validateReleaseArtistsLastfm o release_artists)
      else none
    | none => none
  let vios := vios ++ (match lastfmArtists with | some lv => lv.1 | none => [])
  let validated_release_artists :=
    match lastfmArtists with
    | some lv => lv.2
    | none => release_artists
  let release_title := r.validate_release_title
  let vios := vios ++
    (if !truthyStr release_title then
      [⟨.RELEASE_TITLE_INCONSISTENT,
        "Release contains blank or inconsistent " ++ sq ++ "Album/Release Title" ++ sq ++ " tags"⟩]
     else [])
  let vios := vios ++
    (if truthyStr release_title then titleHygieneViolations (release_title.getD "") else [])
  -- oracle-assisted rule group (lines 158-244)
  let oracleSection : Option (List Violation) :=
    match v.lastfm with
    | none => some []
    | some o =>
      if truthyStr release_title ∧ !validated_release_artists.isEmpty then
        let split := split_release_title (normalize_release_title release_title)
        let rt := split.1
        let flattened_artist := flatten_artists validated_release_artists
        let lastfm_release := o.get_release flattened_artist rt
        let inner : Option (List Violation) :=
          match lastfm_release with
          | none => some []
          | some lr =>
            let tv := if lr.release_name ≠ rt ∧ lastfmCanFixReleaseTitle rt lr.release_name then
                [⟨ViolationType.RELEASE_TITLE_SPELLING,
                  "Incorrectly spelled Album/Release name " ++ sq ++ rt ++ sq ++
                  " (should be " ++ sq ++ lr.release_name ++ sq ++ ")"⟩]
              else []
            let date := (r.trackVals.headD default).date
            let dv := if truthyStr lr.release_date then
                (if lr.release_date ≠ date ∧
                    (!truthyStr date ∨ (date.getD "").length ≤ (lr.release_date.getD "").length) then
                  [⟨ViolationType.DATE_INCORRECT,
                    "Incorrect Release Date " ++ sq ++ pyStrOfOptStr date ++ sq ++
                    " (should be " ++ sq ++ pyStrOfOptStr lr.release_date ++ sq ++ ")"⟩]
                 else [])
              else []
            let release_genres := r.validate_genres
            match v.get_lastfm_tags rt validated_release_artists with
            | none => none
            | some lastfm_tags =>
              let gv := if release_genres.length < 2 ∧ 2 ≤ lastfm_tags.length then
                  let min_tags := Nat.min 2 lastfm_tags.length
                  [⟨ViolationType.BAD_GENRES,
                    "Bad release genres: [" ++ myIntercalate ", " release_genres ++
                    "] (should be [" ++ myIntercalate ", " lastfm_tags ++
                    "]). Add at least " ++ toString min_tags⟩]
                else []
              let ttv := if v.lastfm_track_title_validation then
                  r.trackVals.filterMap (fun t =>
                    match t.track_number with
                    | none => none
                    | some n =>
                      match lr.tracks.lookup n with
                      | none => none
                      | some ltr =>
                        let lastfm_title := normalize_track_title ltr.track_name
                        if !truthyStr t.track_title ∨
                            pyLower (t.track_title.getD "") ≠ pyLower lastfm_title then
                          some ⟨ViolationType.INCORRECT_TRACK_TITLE,
                            "Incorrect track title " ++ sq ++ pyStrOfOptStr t.track_title ++ sq ++
                            " should be: " ++ sq ++ lastfm_title ++ sq⟩
                        else none)
                else []
              some (tv ++ dv ++ gv ++ ttv)
        match inner with
        | none => none
        | some innerV =>
          some (innerV ++
            artistSpellingViolations o .TRACK_ARTIST_SPELLING "Track Artist" Track.artists r ++
            artistSpellingViolations o .RELEASE_ARTIST_SPELLING "Release Artist"
              Track.release_artists r)
      else some []
  match oracleSection with
  | none => none
  | some oracleV =>
    let vios := vios ++ oracleV
    let validated_track_numbers := r.validate_track_numbers
    let vios := vios ++
      (if !validated_track_numbers.isEmpty then
        let flattened_track_nums := validated_track_numbers.map (fun p =>
          "\nDisc " ++ toString p.1 ++ ": " ++
          myIntercalate "," (p.2.map toString))
        [⟨.MISSING_TRACKS,
          "Release does not have a full set of tracks:" ++ myJoin flattened_track_nums⟩]
       else [])
    let vios := vios ++
      (r.validate_total_tracks.map (fun disc =>
        ⟨.TOTAL_TRACKS_INCONSISTENT,
          "Release disc " ++ pyStrOfOptNat disc ++ " has blank, inconsistent or incorrect " ++
          sq ++ "Total Tracks" ++ sq ++ " tags"⟩))
    let validated_disc_numbers := r.validate_disc_numbers
    let vios := vios ++
      (if !validated_disc_numbers.isEmpty then
        [⟨.MISSING_DISCS,
          "Release does not have a full set of discs: " ++
          myIntercalate ", " (validated_disc_numbers.map toString)⟩]
       else [])
    let vios := vios ++
      (if !r.validate_total_discs then
        [⟨.TOTAL_DISCS_INCONSISTENT,
          "Release has incorrect " ++ sq ++ "Total Discs" ++ sq ++ " tags"⟩]
       else [])
    let vios := vios ++
      (if r.get_tag_types.length ≠ 1 then
        [⟨.TAG_TYPES_INCONSISTENT,
          "Release has inconsistent tag types: " ++
          myIntercalate ", " (r.get_tag_types.map TagType.pyStr)⟩]
       else [])
    let vios := vios ++
      (if r.get_codecs.length ≠ 1 then
        [⟨.CODECS_INCONSISTENT,
          "Release has inconsistent codecs: [" ++ myIntercalate ", " r.get_codecs ++ "]"⟩]
       else [])
    let vios := vios ++
      (if 1 < (uniqueScalar (r.get_cbr_bitrates.map (fun x => x / 1000))).length then
        [⟨.CBR_INCONSISTENT,
          "Release has inconsistent CBR bitrates: " ++
          myIntercalate ", " (r.get_cbr_bitrates.map toString)⟩]
       else [])
    let vios := vios ++
      (r.tracks.filterMap (fun p =>
        let correct_filename := get_filename p.2 r.is_va
        if truthyStr correct_filename ∧ some p.1 ≠ correct_filename then
          some ⟨.FILENAME,
            "Invalid filename: " ++ p.1 ++ " - should be " ++ sq ++
            pyStrOfOptStr correct_filename ++ sq⟩
        else none))
    let vios := vios ++
      (r.trackVals.map (fun t =>
        if !truthyStr t.comment then []
        else v.forbidden_comment_substrings.filterMap (fun substr =>
          if strHasSub (pyLower (t.comment.getD "")) substr then
            some (Violation.mk .COMMENT_SUBSTRING
              ("Invalid comment: contains forbidden substring " ++ sq ++ substr ++ sq))
          else none))).flatten
    some (vios, { r with num_violations := some vios.length })

end Metafix

namespace Metafix

/-! Concrete inputs for the claims.  Each claim uses its own definitions. -/

/-- CBR 128 kbit/s ID3 stream shared by the concrete releases of claim C1. -/
def siC1 : StreamInfo := { tag_type := .ID3, mp3_method := .CBR, bitrate := 128000, length := 100 }

/-- Track template of the C1 release: clean tags except for the doubled
trailing CDS stub in the release title. -/
def trackC1 (n : Nat) (title : String) : Track :=
  { artists := ["Massive Attack"], release_artists := ["Massive Attack"],
    release_title := some "Foo CDS CDS", track_title := some title,
    date := some "1998-04-17", track_number := some n, total_tracks := some 2,
    disc_number := some 1, total_discs := some 1, genres := ["a", "b"],
    stream_info := siC1 }

/-- The C1 release: two tracks whose common release title `"Foo CDS CDS"`
carries two strippable `" CDS"` stubs. -/
def relC1 : Release :=
  { tracks := [("01 - Alpha.mp3", trackC1 1 "Alpha"), ("02 - Beta.mp3", trackC1 2 "Beta")],
    category := .UNKNOWN, source := .UNKNOWN, num_violations := none }

/-- Validator with no oracle configured (trivially stable responses). -/
def validatorC1 : ReleaseValidator := { lastfm := none }

/-- Result of the first `fix` application to the C1 release. -/
def relC1fix1 : Release := (validatorC1.fix relC1 "folder" 2026).getD relC1

/-- Result of the second `fix` application. -/
def relC1fix2 : Release := (validatorC1.fix relC1fix1 "folder" 2026).getD relC1fix1

/-- CBR 128 kbit/s ID3 stream of the C3 release. -/
def siC3 : StreamInfo := { tag_type := .ID3, mp3_method := .CBR, bitrate := 128000, length := 100 }

/-- One track of the C3 Mezzanine release. -/
def trackC3 (n : Nat) (title : String) : Track :=
  { artists := ["Massive Attack"], release_artists := ["Massive Attack"],
    release_title := some "Mezzanine", track_title := some title,
    date := some "1998-04-17", track_number := some n, total_tracks := some 11,
    disc_number := some 1, total_discs := some 1, genres := ["Trip-hop", "Electronic"],
    stream_info := siC3 }

/-- The C3 release of the claim: 11 single-disc tracks, all total_tracks=11,
track numbers 1..11, one CBR 128000 bitrate and tag type, constructed through
`Release.__init__` without an explicit category or source. -/
def relC3 : Release := Release.init
  [("01.mp3", trackC3 1 "Angel"), ("02.mp3", trackC3 2 "Risingson"),
   ("03.mp3", trackC3 3 "Teardrop"), ("04.mp3", trackC3 4 "Inertia Creeps"),
   ("05.mp3", trackC3 5 "Exchange"), ("06.mp3", trackC3 6 "Dissolved Girl"),
   ("07.mp3", trackC3 7 "Man Next Door"), ("08.mp3", trackC3 8 "Black Milk"),
   ("09.mp3", trackC3 9 "Mezzanine"), ("10.mp3", trackC3 10 "Group Four"),
   ("11.mp3", trackC3 11 "Exchange Two")]

/-- One track of the C4 release: track artist `"X"` differs from the release
artist `"Y"`, so the claim's heuristic would count one additional artist. -/
def trackC4 (n : Nat) : Track :=
  { artists := ["X"], release_artists := ["Y"], release_title := some "T",
    track_title := some ("t" ++ toString n), date := some "2000",
    track_number := some n, total_tracks := some 2, disc_number := some 1,
    total_discs := some 1, genres := [],
    stream_info := { tag_type := .ID3, mp3_method := .CBR, bitrate := 128000, length := 100 } }

/-- Track list of the C4 release: two tracks, one distinct additional artist. -/
def tracksC4 : List (String × Track) := [("01.mp3", trackC4 1), ("02.mp3", trackC4 2)]

/-- The C4 release, constructed without an explicit category. -/
def relC4 : Release := Release.init tracksC4

/-- The raw C4 release object as it stands when `guess_category` runs inside
the constructor (before any category assignment). -/
def relC4raw : Release :=
  { tracks := tracksC4, category := .UNKNOWN, source := .UNKNOWN, num_violations := none }

/-- One track of the C5 release: clean tags plus a comment containing the
forbidden substring `spam`. -/
def trackC5 (n : Nat) (title : String) : Track :=
  { artists := ["Massive Attack"], release_artists := ["Massive Attack"],
    release_title := some "Mezzanine", track_title := some title,
    date := some "1998-04-17", track_number := some n, total_tracks := some 2,
    disc_number := some 1, total_discs := some 1, genres := ["a", "b"],
    comment := some "this is spam", stream_info := siC3 }

/-- The C5 release: two tracks whose comments both contain `"spam"`. -/
def relC5 : Release :=
  { tracks := [("01.mp3", trackC5 1 "Alpha"), ("02.mp3", trackC5 2 "Beta")],
    category := .UNKNOWN, source := .UNKNOWN, num_violations := none }

/-- Validator of the C5 claim: no oracle, one forbidden comment substring. -/
def validatorC5 : ReleaseValidator :=
  { lastfm := none, forbidden_comment_substrings := ["spam"] }

/-- Track-naming collaborator that never proposes a filename (spec §6 leaves
it unspecified; `validate` skips the filename rule on a falsy result). -/
def noFilenames : Track → Bool → Option String := fun _ _ => none

/-- The duplicated comment violation produced twice by `validate` on `relC5`. -/
def dupViolationC5 : Violation :=
  ⟨.COMMENT_SUBSTRING, "Invalid comment: contains forbidden substring " ++ sq ++ "spam" ++ sq⟩

/-- Oracle of the C8 claim: the artist resolves to itself and the release
resolves with the less precise date `"1998"` and no tags or track list. -/
def oracleC8 : Oracle :=
  { get_artist := fun name =>
      if name = "Massive Attack" then some { artist_name := "Massive Attack", tags := [] }
      else none,
    get_release := fun artist title =>
      if artist = "Massive Attack" ∧ title = "Mezzanine" then
        some { release_name := "Mezzanine", release_date := some "1998", tracks := [], tags := [] }
      else none }

/-- Validator carrying the C8 oracle. -/
def validatorC8 : ReleaseValidator := { lastfm := some oracleC8 }

/-- The oracle release record the C8 claim's fix step receives. -/
def lrC8 : LastfmRelease :=
  { release_name := "Mezzanine", release_date := some "1998", tracks := [], tags := [] }

/-- The C8 release: one track whose date `"1998-04-17"` is strictly longer
(more precise) than the oracle's `"1998"`. -/
def relC8 : Release :=
  { tracks := [("01.mp3",
      { artists := ["Massive Attack"], release_artists := ["Massive Attack"],
        release_title := some "Mezzanine", track_title := some "Angel",
        date := some "1998-04-17", track_number := some 1, total_tracks := some 1,
        disc_number := some 1, total_discs := some 1, genres := ["a", "b"],
        stream_info := siC3 })],
    category := .UNKNOWN, source := .UNKNOWN, num_violations := none }

/-- Result of the C8 release-fix step on the concrete input (used by the
witness of the amended claim). -/
def relC8out : Release :=
  (validatorC8.lastfm_release_fixes relC8 (some lrC8) ["Massive Attack"] "Mezzanine" "").getD relC8

/-- Oracle of the C9 claim: artist `"a"` resolves to the canonical `"A"`,
artist `"b"` is not found. -/
def oracleC9 : Oracle :=
  { get_artist := fun name =>
      if name = "a" then some { artist_name := "A", tags := [] } else none,
    get_release := fun _ _ => none }

/-- The C9 release: one track crediting artists `["a", "b"]`. -/
def relC9 : Release :=
  { tracks := [("01.mp3",
      { artists := ["a", "b"], release_artists := ["a"],
        release_title := some "T", track_title := some "t",
        date := some "2000", track_number := some 1, total_tracks := some 1,
        disc_number := some 1, total_discs := some 1, genres := [],
        stream_info := siC3 })],
    category := .UNKNOWN, source := .UNKNOWN, num_violations := none }

/-- One track of the C10 counterexample release: a duplicated release-artist
list. -/
def trackC10 (n : Nat) : Track :=
  { artists := ["A"], release_artists := ["A", "A"], release_title := some "T",
    track_title := some "t", date := some "2000", track_number := some n,
    total_tracks := some 2, disc_number := some 1, total_discs := some 1,
    genres := [], stream_info := siC3 }

/-- The C10 counterexample release: every track's release-artist list is
`["A", "A"]` — a (trivial) permutation of the first track's list. -/
def relC10 : Release :=
  { tracks := [("01.mp3", trackC10 1), ("02.mp3", trackC10 2)],
    category := .UNKNOWN, source := .UNKNOWN, num_violations := none }

/-- Tracks of the C10 witness release: release-artist lists that are
permutations of each other. -/
def trackC10w (n : Nat) (ras : List String) : Track :=
  { artists := ["A"], release_artists := ras, release_title := some "T",
    track_title := some "t", date := some "2000", track_number := some n,
    total_tracks := some 2, disc_number := some 1, total_discs := some 1,
    genres := [], stream_info := siC3 }

/-- The C10 witness release: two tracks with release artists `["B", "A"]` and
`["A", "B"]`. -/
def relC10w : Release :=
  { tracks := [("01.mp3", trackC10w 1 ["B", "A"]), ("02.mp3", trackC10w 2 ["A", "B"])],
    category := .UNKNOWN, source := .UNKNOWN, num_violations := none }

/-- Association lookup on the disc-grouping lists (proof-layer mirror of
Python dict indexing). -/
def alook (d : Nat) : List (Nat × List Nat) → Option (List Nat)
  | [] => none
  | p :: rest => if p.1 = d then some p.2 else alook d rest

/-- Disc of every track in order (missing/zero defaulting to 1). -/
def discsOf (ts : List Track) : List Nat := ts.map (fun t => pyOr1 t.disc_number)

/-- Truthy track numbers contributed to disc `d`, in track order (the value
list `__get_disc_numbers_by_track` accumulates for `d` before sorting). -/
def collectDisc (ts : List Track) (d : Nat) : List Nat :=
  ts.filterMap (fun t =>
    if pyOr1 t.disc_number = d ∧ truthyNat t.track_number then some (t.track_number.getD 0)
    else none)

/-- Tracks of a release that sit on disc `d` (missing disc defaulting to 1). -/
def tracksOnDisc (r : Release) (d : Nat) : List Track :=
  r.trackVals.filter (fun t => pyOr1 t.disc_number = d)

/-- Tracks of the C6 witness release, parametrised by disc, track number and
total-track count. -/
def trackC6 (dn tn tt : Nat) : Track :=
  { artists := ["A"], release_artists := ["A"], release_title := some "T",
    track_title := some "t", date := some "2000", track_number := some tn,
    total_tracks := some tt, disc_number := some dn, total_discs := some 2,
    genres := [], stream_info := siC3 }

/-- The C6 witness release: disc 1 carrying tracks 2 then 1, disc 2 carrying
track 1 — gapless numbering from 1 on each disc. -/
def relC6 : Release :=
  { tracks := [("01.mp3", trackC6 1 2 2), ("02.mp3", trackC6 1 1 2),
               ("03.mp3", trackC6 2 1 1)],
    category := .UNKNOWN, source := .UNKNOWN, num_violations := none }

/-- The C7 witness release: two tracks on discs 1 and 2, both declaring
`total_discs = 2`. -/
def relC7 : Release :=
  { tracks := [("01.mp3", trackC6 1 1 1), ("02.mp3", trackC6 2 1 1)],
    category := .UNKNOWN, source := .UNKNOWN, num_violations := none }

/-- The sorted disc list `validate_total_discs` computes from the grouping
(proof-layer name for its first local). -/
def sortedDiscs (r : Release) : List Nat :=
  pySortNat (r.disc_numbers_by_track.map Prod.fst)

end Metafix

namespace Metafix

set_option maxRecDepth 20000

/-- Claim C1 (code bug): `fix` is not idempotent, contrary to the spec's
idempotence contract.  On the release whose consistent title is
`"Foo CDS CDS"` (with no oracle configured, hence trivially stable
responses), the first `fix` strips one `" CDS"` stub and a second `fix`
strips another: `fix(fix(r, f), f) ≠ fix(r, f)`. -/
theorem claim_C1_fix_not_idempotent :
    (validatorC1.fix relC1 "folder" 2026).isSome = true ∧
    relC1fix1.firstTrack.release_title = some "Foo CDS" ∧
    (validatorC1.fix relC1fix1 "folder" 2026).isSome = true ∧
    relC1fix2.firstTrack.release_title = some "Foo" ∧
    relC1fix2 ≠ relC1fix1 := by
  refine ⟨by decide, by decide, by decide, by decide, by decide⟩

/-- Claim C2 (confirmed): `fix(r, f)` never changes the input release.  The
call frame `fixCall` records the caller's object after the call next to the
returned value: because `fix` deep-copies `release_in` in its first statement
and every pass mutates only the copy, the caller's release is returned
exactly as it went in. -/
theorem claim_C2_fix_never_mutates_input (v : ReleaseValidator) (r : Release)
    (folder_name : String) (currentYear : Nat) :
    (v.fixCall r folder_name currentYear).1 = r ∧
    (v.fixCall r folder_name currentYear).2 = v.fix r folder_name currentYear :=
  ⟨rfl, rfl⟩

/-- Claim C3 (code bug): on the 11-track Mezzanine release constructed
without explicit category or source, `get_folder_name()` returns
`"Massive Attack - 1998 - Mezzanine [Unknown] [Unknown] [CBR128]"` — not the
`"Massive Attack - 1998 - Mezzanine [CBR]"` asserted by the claim and by the
repository's own test: the dead `guess_category` guard leaves the category
`Unknown` (printed, as is the non-`CD` default source), and the short codec
string keeps its bitrate suffix. -/
theorem claim_C3_folder_name :
    relC3.get_folder_name =
      some "Massive Attack - 1998 - Mezzanine [Unknown] [Unknown] [CBR128]" ∧
    relC3.get_folder_name ≠ some "Massive Attack - 1998 - Mezzanine [CBR]" := by
  refine ⟨by decide, by decide⟩

/-- Claim C4 (code bug): the category heuristic never runs.  On a two-track
release with exactly one additional track-level artist the heuristic body
would assign `Single`, but `guess_category` returns at its first statement
because Python `Enum` members (including `UNKNOWN`) are truthy, so the
constructed release keeps category `Unknown`. -/
theorem claim_C4_heuristic_never_runs :
    relC4.category = ReleaseCategory.UNKNOWN ∧
    guessCategoryCore relC4raw = ReleaseCategory.SINGLE ∧
    ReleaseCategory.UNKNOWN ≠ ReleaseCategory.SINGLE := by
  refine ⟨by decide, by decide, by decide⟩

/-- Claim C5 (code bug): exact duplicate violations do not collapse.  On a
release whose two tracks both carry the forbidden comment substring `spam`,
`validate` returns the same `(kind, message)` violation twice — `Violation`
defines neither `__eq__` nor `__hash__`, so the `OrderedSet` dedups by object
identity only.  The `num_violations` side effect does equal the length of the
returned list. -/
theorem claim_C5_duplicate_violations :
    validatorC5.validate relC5 noFilenames =
      some ([dupViolationC5, dupViolationC5], { relC5 with num_violations := some 2 }) := by
  decide

/-- Claim C8 counterexample: the oracle's date `"1998"` is strictly shorter
(less precise) than the track's `"1998-04-17"`, yet the release-fix step
overwrites the track's date with it — the precision guard exists only in
`validate`, not in `fix`. -/
theorem claim_C8_counterexample :
    relC8.firstTrack.date = some "1998-04-17" ∧
    (lrC8.release_date.getD "").length < (relC8.firstTrack.date.getD "").length ∧
    (validatorC8.lastfm_release_fixes relC8 (some lrC8) ["Massive Attack"] "Mezzanine" "").map
      (fun r => r.firstTrack.date) = some (some "1998") := by
  refine ⟨by decide, by decide, by decide⟩

/-- Claim C9 counterexample: with artist `"a"` resolving to `"A"` and artist
`"b"` not found, the track's artist list becomes `["A", "b"]` — the resolved
artist is overwritten even though another lookup failed, so the original list
is not kept all-or-nothing. -/
theorem claim_C9_counterexample :
    relC9.firstTrack.artists = ["a", "b"] ∧
    oracleC9.get_artist (normalize_artist_name "b") = none ∧
    (lastfmFixTrackArtists oracleC9 relC9).firstTrack.artists = ["A", "b"] ∧
    (["A", "b"] : List String) ≠ ["a", "b"] := by
  refine ⟨by decide, by decide, by decide, by decide⟩

/-- Claim C10 counterexample: every track's release-artist list equals the
first track's list `["A", "A"]` (a permutation of itself), yet
`validate_release_artists` returns `["A"]` — the first list with duplicates
removed, not the first list itself. -/
theorem claim_C10_counterexample :
    (∀ p ∈ relC10.tracks, p.2.release_artists = relC10.firstTrack.release_artists) ∧
    relC10.firstTrack.release_artists = ["A", "A"] ∧
    relC10.validate_release_artists = ["A"] ∧
    (["A"] : List String) ≠ ["A", "A"] := by
  refine ⟨by decide, by decide, by decide, by decide⟩

end Metafix

namespace Metafix

/-- The per-artist loop of `__lastfm_fix_track_artists` is the pointwise
resolution map: found artists become their canonical names, not-found artists
stay themselves. -/
theorem artistLoop_eq_map (o : Oracle) : ∀ l : List String,
    artistLoop o l = l.map (fun a =>
      match o.get_artist (normalize_artist_name a) with
      | some la => la.artist_name
      | none => a) := by
  intro l
  induction l with
  | nil => rfl
  | cons a rest ih => simp [artistLoop, ih]

/-- Claim C9, amended: track-level artists are resolved per artist, not
all-or-nothing.  Each artist that resolves is replaced by its canonical name,
a not-found artist is kept unchanged individually, and the rebuilt list always
replaces the track's artists list. -/
theorem claim_C9_amended_per_artist_resolution (o : Oracle) (r : Release) :
    (lastfmFixTrackArtists o r).tracks = r.tracks.map (fun p =>
      (p.1, { p.2 with artists := p.2.artists.map (fun a =>
        match o.get_artist (normalize_artist_name a) with
        | some la => la.artist_name
        | none => a) })) := by
  unfold lastfmFixTrackArtists
  simp only [artistLoop_eq_map]

end Metafix

namespace Metafix

/-- Items whose keys are all already seen contribute nothing to `uniqueBy`. -/
theorem uniqueBy_nil_of_seen {α κ : Type} [DecidableEq κ] (key : α → κ) :
    ∀ (l : List α) (seen : List κ), (∀ x ∈ l, key x ∈ seen) → uniqueBy key l seen = [] := by
  intro l
  induction l with
  | nil => intro seen _; rfl
  | cons x xs ih =>
    intro seen h
    have hx : key x ∈ seen := h x (List.mem_cons_self x xs)
    simp only [uniqueBy, if_pos hx]
    exact ih seen (fun y hy => h y (List.mem_cons_of_mem x hy))

/-- Python `sorted` on strings is invariant under permutation of the input. -/
theorem pySortStr_perm_eq {l₁ l₂ : List String} (h : l₁.Perm l₂) :
    pySortStr l₁ = pySortStr l₂ := by
  haveI ht : IsTotal String (fun a b : String => a ≤ b) := ⟨fun a b => le_total a b⟩
  haveI htr : IsTrans String (fun a b : String => a ≤ b) := ⟨fun a b c => le_trans⟩
  haveI ha : IsAntisymm String (fun a b : String => a ≤ b) := ⟨fun a b => le_antisymm⟩
  have p1 := @List.perm_insertionSort String (fun a b => a ≤ b) (fun a b => strDecLe a b) l₁
  have p2 := @List.perm_insertionSort String (fun a b => a ≤ b) (fun a b => strDecLe a b) l₂
  have s1 := @List.sorted_insertionSort String (fun a b => a ≤ b) (fun a b => strDecLe a b)
    ht htr l₁
  have s2 := @List.sorted_insertionSort String (fun a b => a ≤ b) (fun a b => strDecLe a b)
    ht htr l₂
  exact List.eq_of_perm_of_sorted ((p1.trans h).trans p2.symm) s1 s2

/-- First step of `uniqueScalar` on a non-empty list. -/
theorem uniqueScalar_cons {α : Type} [DecidableEq α] (x : α) (xs : List α) :
    uniqueScalar (x :: xs) = x :: uniqueBy id xs [x] := by
  simp [uniqueScalar, uniqueBy]

/-- Claim C10, amended: when every track's release-artist list is a non-empty
permutation of the first track's list, `validate_release_artists` succeeds and
returns the first track's list with exact duplicates removed (`unique` applied
to it); order differences are ignored because `unique` compares the lists by
their sorted contents. -/
theorem claim_C10_amended_perm_unique (r : Release) (hne : r.tracks ≠ [])
    (hperm : ∀ p ∈ r.tracks, p.2.release_artists.Perm r.firstTrack.release_artists)
    (hfst : r.firstTrack.release_artists ≠ []) :
    r.validate_release_artists = uniqueScalar r.firstTrack.release_artists ∧
    r.validate_release_artists ≠ [] := by
  obtain ⟨q, qs, hq⟩ := List.exists_cons_of_ne_nil hne
  have hft : r.firstTrack = q.2 := by
    rw [Release.firstTrack, hq]
    rfl
  have hcollapse :
      uniqueSortedKey (r.trackVals.map (fun t => t.release_artists)) =
        [q.2.release_artists] := by
    rw [Release.trackVals, hq]
    simp only [List.map_cons, List.map_map]
    unfold uniqueSortedKey
    have h0 : pySortStr (q.2.release_artists) ∉ ([] : List (List String)) := by
      simp
    simp only [uniqueBy, if_neg h0]
    have hrest : uniqueBy pySortStr
        (qs.map ((fun t => t.release_artists) ∘ Prod.snd)) [pySortStr q.2.release_artists] =
        [] := by
      apply uniqueBy_nil_of_seen
      intro x hx
      obtain ⟨p, hp, hpx⟩ := List.mem_map.1 hx
      have hpr : p ∈ r.tracks := by
        rw [hq]
        exact List.mem_cons_of_mem q hp
      have := hperm p hpr
      rw [hft] at this
      rw [← hpx]
      simp only [Function.comp]
      rw [pySortStr_perm_eq this]
      exact List.mem_singleton.2 rfl
    rw [hrest]
  have hmain : r.validate_release_artists = uniqueScalar q.2.release_artists := by
    unfold Release.validate_release_artists
    rw [hcollapse]
    rfl
  rw [hft]
  refine ⟨hmain, ?_⟩
  rw [hmain]
  obtain ⟨a, rest, ha⟩ := List.exists_cons_of_ne_nil (by rw [hft] at hfst; exact hfst)
  rw [ha, uniqueScalar_cons]
  exact List.cons_ne_nil a _

/-- Witness for the amended claim C10 at the concrete two-track release with
release-artist lists `["B", "A"]` and `["A", "B"]`. -/
theorem claim_C10_amended_witness :
    relC10w.validate_release_artists = uniqueScalar relC10w.firstTrack.release_artists ∧
    relC10w.validate_release_artists ≠ [] :=
  claim_C10_amended_perm_unique relC10w (by decide) (by decide) (by decide)

end Metafix

namespace Metafix

/-- After the date pass, every track carries exactly the oracle's date. -/
theorem lrfDatePass_dates (lr : LastfmRelease) (r : Release) (d : String)
    (hd : lr.release_date = some d) (hne : d ≠ "") :
    ∀ q ∈ (lrfDatePass lr r).tracks, q.2.date = some d := by
  intro q hq
  have htr : truthyStr lr.release_date = true := by
    rw [hd]
    simpa [truthyStr] using hne
  unfold lrfDatePass at hq
  rw [if_pos htr] at hq
  have hq2 : q ∈ r.tracks.map (fun p =>
      if truthyStr lr.release_date ∧ lr.release_date ≠ p.2.date then
        (p.1, { p.2 with date := lr.release_date })
      else p) := hq
  obtain ⟨p, _, rfl⟩ := List.mem_map.1 hq2
  by_cases hcond : truthyStr lr.release_date ∧ lr.release_date ≠ p.2.date
  · rw [if_pos hcond]
    exact hd
  · rw [if_neg hcond]
    have heq : lr.release_date = p.2.date := not_ne_iff.1 (not_and.1 hcond htr)
    exact heq ▸ hd

/-- The genre pass does not touch dates. -/
theorem lrfGenresPass_dates (release_genres lastfm_tags : List String) (r : Release)
    (d : String) (h : ∀ q ∈ r.tracks, q.2.date = some d) :
    ∀ q ∈ (lrfGenresPass release_genres lastfm_tags r).tracks, q.2.date = some d := by
  intro q hq
  unfold lrfGenresPass at hq
  by_cases hc : release_genres.length < 2 ∧ 2 ≤ lastfm_tags.length
  · rw [if_pos hc] at hq
    obtain ⟨p, hp, rfl⟩ := List.mem_map.1 hq
    exact h p hp
  · rw [if_neg hc] at hq
    exact h q hq

/-- The track-number filling loop does not touch dates. -/
theorem fillTrackNumsLoop_dates (lr : LastfmRelease) (d : String) :
    ∀ (rest done out : List (String × Track)),
      fillTrackNumsLoop lr done rest = some out →
      (∀ q ∈ done, q.2.date = some d) → (∀ q ∈ rest, q.2.date = some d) →
      ∀ q ∈ out, q.2.date = some d := by
  intro rest
  induction rest with
  | nil =>
    intro done out h hdone _ q hq
    unfold fillTrackNumsLoop at h
    cases h
    exact hdone q hq
  | cons p ps ih =>
    intro done out h hdone hrest q hq
    have hp : p.2.date = some d := hrest p (List.mem_cons_self p ps)
    have hps : ∀ x ∈ ps, x.2.date = some d :=
      fun x hx => hrest x (List.mem_cons_of_mem p hx)
    have hstep : ∀ (t' : Track), t'.date = p.2.date →
        fillTrackNumsLoop lr (done ++ [(p.1, t')]) ps = some out →
        ∀ x ∈ out, x.2.date = some d := by
      intro t' ht' hcall
      refine ih (done ++ [(p.1, t')]) out hcall ?_ hps
      intro x hx
      rcases List.mem_append.1 hx with hx | hx
      · exact hdone x hx
      · have hxe : x = (p.1, t') := List.mem_singleton.1 hx
        rw [hxe]
        exact ht'.trans hp
    unfold fillTrackNumsLoop at h
    split at h
    · exact hstep p.2 rfl h q hq
    · split at h
      · cases h
      · dsimp only at h
        split at h
        · refine hstep _ ?_ h q hq
          rfl
        · refine hstep _ ?_ h q hq
          rfl

end Metafix

namespace Metafix

/-- The title-acceptance step does not touch dates. -/
theorem acceptTitle_date (lr : LastfmRelease) (b : Bool) (t t' : Track)
    (h : acceptTitle lr b t = some t') : t'.date = t.date := by
  unfold acceptTitle at h
  split at h
  · cases h
    rfl
  · split at h
    · cases h
      rfl
    · dsimp only at h
      split at h
      · split at h
        · split at h
          · cases h
            rfl
          · cases h
        · split at h
          · cases h
            rfl
          · split at h
            · cases h
              rfl
            · cases h
              rfl
      · cases h
        rfl

/-- Retitling all tracks through `acceptTitle` keeps every date. -/
theorem mapM_acceptTitle_dates (lr : LastfmRelease) (b : Bool) (d : String) :
    ∀ (ts out : List (String × Track)),
      ts.mapM (fun p => (acceptTitle lr b p.2).map (fun t2 => (p.1, t2))) = some out →
      (∀ q ∈ ts, q.2.date = some d) → ∀ q ∈ out, q.2.date = some d := by
  intro ts
  induction ts with
  | nil =>
    intro out h _ q hq
    cases h
    cases hq
  | cons p ps ih =>
    intro out h hts q hq
    rw [List.mapM_cons] at h
    cases hA : acceptTitle lr b p.2 with
    | none => rw [hA] at h; cases h
    | some t2 =>
      rw [hA] at h
      cases hB : ps.mapM (fun p => (acceptTitle lr b p.2).map (fun t2 => (p.1, t2))) with
      | none => rw [hB] at h; cases h
      | some rest =>
        rw [hB] at h
        have hout : out = (p.1, t2) :: rest := by
          cases h
          rfl
        subst hout
        rcases List.mem_cons.1 hq with hq | hq
        · rw [hq]
          have hpre : t2.date = p.2.date := acceptTitle_date lr b p.2 t2 hA
          exact hpre.trans (hts p (List.mem_cons_self p ps))
        · exact ih rest hB (fun x hx => hts x (List.mem_cons_of_mem p hx)) q hq

/-- Claim C8, amended: when the oracle supplies a (truthy) release date and
`__lastfm_release_fixes` completes, every track of the result carries exactly
the oracle's date — regardless of how precise the track's own date was. -/
theorem claim_C8_amended_date_overwrite (v : ReleaseValidator) (r : Release)
    (lr : LastfmRelease) (release_artists : List String)
    (release_title release_edition : String) (out : Release) (d : String)
    (hd : lr.release_date = some d) (hne : d ≠ "")
    (hout : v.lastfm_release_fixes r (some lr) release_artists release_title release_edition
      = some out) :
    ∀ q ∈ out.tracks, q.2.date = some d := by
  unfold ReleaseValidator.lastfm_release_fixes at hout
  dsimp only at hout
  split at hout
  · cases hout
  next lastfm_tags hT =>
    split at hout
    · cases hout
    next filled hF =>
      split at hout
      · cases hout
      next retitled hM =>
        have hbase := lrfDatePass_dates lr
          (lrfTitlePass lr release_title release_edition (lrfArtistsPass release_artists r))
          d hd hne
        have hgen := lrfGenresPass_dates
          ((lrfDatePass lr (lrfTitlePass lr release_title release_edition
            (lrfArtistsPass release_artists r))).validate_genres)
          lastfm_tags
          (lrfDatePass lr (lrfTitlePass lr release_title release_edition
            (lrfArtistsPass release_artists r)))
          d hbase
        have hfill := fillTrackNumsLoop_dates lr d _ [] filled hF (by intro q hq; cases hq) hgen
        have hret := mapM_acceptTitle_dates lr _ d _ retitled hM hfill
        cases hout
        exact hret

end Metafix

namespace Metafix

/-- Witness for the amended claim C8 at the concrete one-track release: the
oracle's date `"1998"` is written to the (first) track. -/
theorem claim_C8_amended_witness :
    lrC8.release_date = some "1998" ∧ "1998" ≠ "" ∧
    (relC8out.tracks.headD ("", default)).2.date = some "1998" :=
  ⟨by decide, by decide,
    claim_C8_amended_date_overwrite validatorC8 relC8 lrC8 ["Massive Attack"] "Mezzanine" ""
      relC8out "1998" (by decide) (by decide) (by decide)
      (relC8out.tracks.headD ("", default)) (by decide)⟩

end Metafix

namespace Metafix

/-- Lookup distributes over list append. -/
theorem alook_append (d : Nat) : ∀ l₁ l₂ : List (Nat × List Nat),
    alook d (l₁ ++ l₂) =
      (match alook d l₁ with
       | some v => some v
       | none => alook d l₂) := by
  intro l₁ l₂
  induction l₁ with
  | nil => rfl
  | cons p rest ih =>
    by_cases hp : p.1 = d
    · simp [alook, hp]
    · simp [alook, hp, ih]

/-- Lookup commutes with mapping a function over the values. -/
theorem alook_mapVal (d : Nat) (f : List Nat → List Nat) :
    ∀ l : List (Nat × List Nat),
      alook d (l.map (fun p => (p.1, f p.2))) = (alook d l).map f := by
  intro l
  induction l with
  | nil => rfl
  | cons p rest ih =>
    by_cases hp : p.1 = d
    · simp [alook, hp]
    · simp [alook, hp, ih]

/-- Lookup across the in-place value update used by `gStep`. -/
theorem alook_mapUpd (d0 n : Nat) : ∀ (l : List (Nat × List Nat)) (d : Nat),
    alook d (l.map (fun p => if p.1 = d0 then (p.1, p.2 ++ [n]) else p)) =
      if d = d0 then (alook d l).map (fun v => v ++ [n]) else alook d l := by
  intro l
  induction l with
  | nil =>
    intro d
    by_cases hd : d = d0 <;> simp [alook, hd]
  | cons p rest ih =>
    intro d
    by_cases hp0 : p.1 = d0
    · by_cases hpd : p.1 = d
      · have hdd0 : d = d0 := hpd ▸ hp0
        simp [alook, hp0, hpd, hdd0]
      · have hne : ¬ d0 = d := fun h => hpd (hp0.trans h)
        by_cases hdd0 : d = d0
        · exact absurd hdd0.symm hne
        · simp [alook, hp0, hpd, hdd0, hne, ih]
    · by_cases hpd : p.1 = d
      · have hdd0 : ¬ d = d0 := fun h => hp0 (hpd.trans h)
        simp [alook, hp0, hpd, hdd0]
      · by_cases hdd0 : d = d0
        · simp [alook, hp0, hpd, hdd0, ih]
        · simp [alook, hp0, hpd, hdd0, ih]

/-- A lookup succeeds exactly on the keys for which `any` finds a binding. -/
theorem alook_isSome_any (d : Nat) : ∀ l : List (Nat × List Nat),
    (alook d l).isSome = l.any (fun p => p.1 = d) := by
  intro l
  induction l with
  | nil => rfl
  | cons p rest ih =>
    by_cases hp : p.1 = d
    · simp [alook, hp]
    · simp [alook, hp, ih]

/-- Lookup after the key-registration step of `gStep`. -/
theorem alook_register (d d0 : Nat) (acc : List (Nat × List Nat)) :
    alook d (if acc.any (fun p => p.1 = d0) then acc else acc ++ [(d0, [])]) =
      if d = d0 then some ((alook d acc).getD []) else alook d acc := by
  by_cases hany : acc.any (fun p => p.1 = d0)
  · rw [if_pos hany]
    by_cases hdd0 : d = d0
    · subst hdd0
      have hsome : (alook d acc).isSome = true := by
        rw [alook_isSome_any]
        exact hany
      obtain ⟨v, hv⟩ := Option.isSome_iff_exists.1 hsome
      rw [if_pos rfl, hv]
      rfl
    · rw [if_neg hdd0]
  · rw [if_neg hany, alook_append]
    by_cases hdd0 : d = d0
    · subst hdd0
      have hnone : alook d acc = none := by
        have : (alook d acc).isSome = false := by
          rw [alook_isSome_any]
          exact Bool.not_eq_true _ ▸ (by simpa using hany)
        exact Option.not_isSome_iff_eq_none.1 (by simp [this])
      rw [hnone]
      simp [alook, if_pos rfl]
    · by_cases hmatch : alook d acc = none
      · rw [hmatch]
        have hne : ¬ d0 = d := fun h => hdd0 h.symm
        simp [alook, hdd0, hne, if_neg hdd0]
      · obtain ⟨v, hv⟩ := Option.ne_none_iff_exists.1 hmatch
        rw [← hv]
        simp [if_neg hdd0]

end Metafix

namespace Metafix

/-- The disc list of a non-empty track list unfolds head-first. -/
theorem discsOf_cons (t : Track) (ts : List Track) :
    discsOf (t :: ts) = pyOr1 t.disc_number :: discsOf ts := rfl

/-- `collectDisc` on a non-empty track list: the head contributes its truthy
track number when it sits on the disc. -/
theorem collectDisc_cons (t : Track) (ts : List Track) (d : Nat) :
    collectDisc (t :: ts) d =
      (if pyOr1 t.disc_number = d ∧ truthyNat t.track_number
       then [t.track_number.getD 0] else []) ++ collectDisc ts d := by
  by_cases h : pyOr1 t.disc_number = d ∧ truthyNat t.track_number
  · simp [collectDisc, List.filterMap_cons, h]
  · simp [collectDisc, List.filterMap_cons, h]

/-- A disc absent from the disc list collects no track numbers. -/
theorem collectDisc_eq_nil : ∀ (ts : List Track) (d : Nat),
    d ∉ discsOf ts → collectDisc ts d = [] := by
  intro ts
  induction ts with
  | nil => intro d _; rfl
  | cons t rest ih =>
    intro d h
    rw [discsOf_cons] at h
    have hne : ¬ pyOr1 t.disc_number = d :=
      fun he => h (List.mem_cons.2 (Or.inl he.symm))
    have hrest : d ∉ discsOf rest := fun hm => h (List.mem_cons.2 (Or.inr hm))
    rw [collectDisc_cons, if_neg (fun hc => hne hc.1), List.nil_append]
    exact ih d hrest

/-- Lookup after one `gStep`: the stepped track appends its truthy track
number to its own disc and leaves every other disc unchanged. -/
theorem gStep_alook (acc : List (Nat × List Nat)) (t : Track) (d : Nat) :
    alook d (gStep acc t) =
      if d = pyOr1 t.disc_number then
        some ((alook d acc).getD [] ++
          (if truthyNat t.track_number then [t.track_number.getD 0] else []))
      else alook d acc := by
  unfold gStep
  dsimp only
  by_cases htr : truthyNat t.track_number
  · rw [if_pos htr, alook_mapUpd, alook_register]
    by_cases hd : d = pyOr1 t.disc_number
    · rw [if_pos hd, if_pos hd, if_pos hd, if_pos htr]
      rfl
    · rw [if_neg hd, if_neg hd, if_neg hd]
  · rw [if_neg htr, alook_register]
    by_cases hd : d = pyOr1 t.disc_number
    · rw [if_pos hd, if_pos hd, if_neg htr, List.append_nil]
    · rw [if_neg hd, if_neg hd]

/-- Lookup after folding `gStep` over a track list: a disc present in the
list maps to whatever the accumulator already held followed by the tracks'
contributions in order; any other key is untouched. -/
theorem foldl_gStep_alook (d : Nat) : ∀ (ts : List Track) (acc : List (Nat × List Nat)),
    alook d (ts.foldl gStep acc) =
      if d ∈ discsOf ts then some ((alook d acc).getD [] ++ collectDisc ts d)
      else alook d acc := by
  intro ts
  induction ts with
  | nil =>
    intro acc
    simp [discsOf, collectDisc]
  | cons t rest ih =>
    intro acc
    rw [List.foldl_cons, ih, discsOf_cons, collectDisc_cons]
    by_cases hd : d = pyOr1 t.disc_number
    · have hmem : d ∈ pyOr1 t.disc_number :: discsOf rest :=
        List.mem_cons.2 (Or.inl hd)
      rw [if_pos hmem]
      by_cases hmem2 : d ∈ discsOf rest
      · rw [if_pos hmem2, gStep_alook, if_pos hd]
        by_cases htr : truthyNat t.track_number
        · rw [if_pos htr, if_pos ⟨hd.symm, htr⟩]
          simp [List.append_assoc]
        · rw [if_neg htr, if_neg (fun hc => htr hc.2)]
          simp
      · rw [if_neg hmem2, gStep_alook, if_pos hd, collectDisc_eq_nil rest d hmem2]
        by_cases htr : truthyNat t.track_number
        · rw [if_pos htr, if_pos ⟨hd.symm, htr⟩]
          simp
        · rw [if_neg htr, if_neg (fun hc => htr hc.2)]
          simp
    · have hpt : ¬ (pyOr1 t.disc_number = d ∧ truthyNat t.track_number) :=
        fun hc => hd hc.1.symm
      rw [gStep_alook, if_neg hd, if_neg hpt, List.nil_append]
      by_cases hmem2 : d ∈ discsOf rest
      · have hmem : d ∈ pyOr1 t.disc_number :: discsOf rest :=
          List.mem_cons.2 (Or.inr hmem2)
        rw [if_pos hmem2, if_pos hmem]
      · have hnm : d ∉ pyOr1 t.disc_number :: discsOf rest := by
          intro hm
          rcases List.mem_cons.1 hm with h1 | h2
          · exact hd h1
          · exact hmem2 h2
        rw [if_neg hmem2, if_neg hnm]

end Metafix

namespace Metafix

/-- The in-place value update of `gStep` keeps the key list unchanged. -/
theorem keys_mapUpd (d0 n : Nat) : ∀ l : List (Nat × List Nat),
    (l.map (fun p => if p.1 = d0 then (p.1, p.2 ++ [n]) else p)).map Prod.fst =
      l.map Prod.fst := by
  intro l
  induction l with
  | nil => rfl
  | cons p rest ih =>
    by_cases hp : p.1 = d0 <;> simp [hp, ih]

/-- The `any` probe of `gStep` is membership in the key list. -/
theorem keys_any (acc : List (Nat × List Nat)) (d : Nat) :
    acc.any (fun p => p.1 = d) = true ↔ d ∈ acc.map Prod.fst := by
  simp only [List.any_eq_true, List.mem_map, decide_eq_true_eq]

/-- One `gStep` either keeps the key list or appends the new disc at the end. -/
theorem gStep_keys (acc : List (Nat × List Nat)) (t : Track) :
    (gStep acc t).map Prod.fst =
      if acc.any (fun p => p.1 = pyOr1 t.disc_number) then acc.map Prod.fst
      else acc.map Prod.fst ++ [pyOr1 t.disc_number] := by
  unfold gStep
  dsimp only
  by_cases hany : acc.any (fun p => p.1 = pyOr1 t.disc_number)
  · rw [if_pos hany, if_pos hany]
    by_cases htr : truthyNat t.track_number
    · rw [if_pos htr, keys_mapUpd]
    · rw [if_neg htr]
  · rw [if_neg hany, if_neg hany]
    by_cases htr : truthyNat t.track_number
    · rw [if_pos htr, keys_mapUpd, List.map_append]
      rfl
    · rw [if_neg htr, List.map_append]
      rfl

/-- Folding `gStep` preserves distinctness of the disc keys. -/
theorem foldl_gStep_keys_nodup : ∀ (ts : List Track) (acc : List (Nat × List Nat)),
    (acc.map Prod.fst).Nodup → ((ts.foldl gStep acc).map Prod.fst).Nodup := by
  intro ts
  induction ts with
  | nil => intro acc h; exact h
  | cons t rest ih =>
    intro acc h
    rw [List.foldl_cons]
    refine ih _ ?_
    rw [gStep_keys]
    by_cases hany : acc.any (fun p => p.1 = pyOr1 t.disc_number)
    · rw [if_pos hany]; exact h
    · rw [if_neg hany]
      have hnm : pyOr1 t.disc_number ∉ acc.map Prod.fst :=
        fun hm => hany ((keys_any acc _).2 hm)
      rw [List.nodup_append]
      refine ⟨h, List.nodup_singleton _, ?_⟩
      intro a ha hb
      rw [List.mem_singleton] at hb
      exact hnm (hb ▸ ha)

/-- A successful lookup produces a binding of the list. -/
theorem alook_mem (d : Nat) (v : List Nat) : ∀ l : List (Nat × List Nat),
    alook d l = some v → (d, v) ∈ l := by
  intro l
  induction l with
  | nil => intro h; exact absurd h (by simp [alook])
  | cons p rest ih =>
    obtain ⟨p1, p2⟩ := p
    intro h
    by_cases hp : p1 = d
    · simp only [alook, if_pos hp] at h
      obtain rfl := Option.some.inj h
      subst hp
      exact List.mem_cons_self _ _
    · simp only [alook, if_neg hp] at h
      exact List.mem_cons.2 (Or.inr (ih h))

/-- Under distinct keys, every binding of the list is found by lookup. -/
theorem mem_alook : ∀ (l : List (Nat × List Nat)),
    (l.map Prod.fst).Nodup → ∀ p ∈ l, alook p.1 l = some p.2 := by
  intro l
  induction l with
  | nil => intro _ p hp; cases hp
  | cons q rest ih =>
    intro hnd p hp
    rw [List.map_cons] at hnd
    rcases List.mem_cons.1 hp with rfl | hmem
    · simp [alook]
    · have hq : ¬ q.1 = p.1 := by
        intro he
        have hpm : p.1 ∈ rest.map Prod.fst := List.mem_map.2 ⟨p, hmem, rfl⟩
        exact (List.nodup_cons.1 hnd).1 (he ▸ hpm)
      simp only [alook, if_neg hq]
      exact ih (List.nodup_cons.1 hnd).2 p hmem

/-- Lookup succeeds exactly on the key list. -/
theorem alook_isSome_mem_keys (d : Nat) (l : List (Nat × List Nat)) :
    (alook d l).isSome = true ↔ d ∈ l.map Prod.fst := by
  rw [alook_isSome_any]
  exact keys_any l d

/-- Under distinct keys, lookup is invariant under permutation. -/
theorem alook_perm (l l2 : List (Nat × List Nat)) (hperm : l.Perm l2)
    (hnd : (l.map Prod.fst).Nodup) (d : Nat) : alook d l = alook d l2 := by
  have hnd2 : (l2.map Prod.fst).Nodup := (hperm.map Prod.fst).nodup_iff.1 hnd
  cases hl : alook d l with
  | some v =>
    have hm : (d, v) ∈ l := alook_mem d v l hl
    have hm2 : (d, v) ∈ l2 := hperm.mem_iff.1 hm
    exact (mem_alook l2 hnd2 (d, v) hm2).symm
  | none =>
    cases hl2 : alook d l2 with
    | none => rfl
    | some v =>
      have hm2 : (d, v) ∈ l2 := alook_mem d v l2 hl2
      have hm : (d, v) ∈ l := hperm.mem_iff.2 hm2
      have hcontra := mem_alook l hnd (d, v) hm
      rw [hl] at hcontra
      cases hcontra

end Metafix

namespace Metafix

/-- The grouping of `__get_disc_numbers_by_track` carries distinct disc keys. -/
theorem dnbt_keys_nodup (r : Release) :
    (r.disc_numbers_by_track.map Prod.fst).Nodup := by
  unfold Release.disc_numbers_by_track
  dsimp only
  have hperm := List.perm_insertionSort (fun a b : Nat × List Nat => a.1 ≤ b.1)
    ((r.trackVals.foldl gStep []).map (fun p => (p.1, pySortNat p.2)))
  refine (hperm.map Prod.fst).nodup_iff.2 ?_
  rw [List.map_map]
  have hcomp : (Prod.fst ∘ fun p : Nat × List Nat => (p.1, pySortNat p.2)) =
      (Prod.fst : Nat × List Nat → Nat) := funext fun p => rfl
  rw [hcomp]
  exact foldl_gStep_keys_nodup r.trackVals [] (by simp)

/-- Full characterisation of `__get_disc_numbers_by_track` as a map: a disc
present among the tracks maps to its sorted truthy track numbers, any other
key is absent. -/
theorem dnbt_alook (r : Release) (d : Nat) :
    alook d r.disc_numbers_by_track =
      if d ∈ discsOf r.trackVals then some (pySortNat (collectDisc r.trackVals d))
      else none := by
  have hsortnd := dnbt_keys_nodup r
  unfold Release.disc_numbers_by_track at hsortnd ⊢
  dsimp only at hsortnd ⊢
  have hperm := List.perm_insertionSort (fun a b : Nat × List Nat => a.1 ≤ b.1)
    ((r.trackVals.foldl gStep []).map (fun p => (p.1, pySortNat p.2)))
  rw [alook_perm _ _ hperm hsortnd d, alook_mapVal, foldl_gStep_alook]
  by_cases hmem : d ∈ discsOf r.trackVals
  · rw [if_pos hmem, if_pos hmem]
    simp [alook]
  · rw [if_neg hmem, if_neg hmem]
    rfl

end Metafix

namespace Metafix

/-- Every element of `range' s n` is at least `s`. -/
theorem mem_range'_le : ∀ (n s b : Nat), b ∈ List.range' s n → s ≤ b := by
  intro n
  induction n with
  | zero => intro s b h; cases h
  | succ k ih =>
    intro s b h
    have hc : List.range' s (k+1) = s :: List.range' (s+1) k := rfl
    rw [hc] at h
    rcases List.mem_cons.1 h with rfl | h2
    · exact Nat.le_refl b
    · exact Nat.le_trans (Nat.le_succ s) (ih (s+1) b h2)

/-- `range' s n` is sorted for the order `pySortNat` is performed in. -/
theorem sorted_range' : ∀ (n s : Nat),
    List.Sorted (fun a b : Nat => a ≤ b) (List.range' s n) := by
  intro n
  induction n with
  | zero => intro s; exact List.sorted_nil
  | succ k ih =>
    intro s
    have hc : List.range' s (k+1) = s :: List.range' (s+1) k := rfl
    rw [hc]
    refine List.sorted_cons.2 ⟨?_, ih (s+1)⟩
    intro b hb
    exact Nat.le_trans (Nat.le_succ s) (mem_range'_le k (s+1) b hb)

/-- A contiguous run passes the adjacent-increment scan. -/
theorem adjSeqOk_range' : ∀ (n s : Nat), adjSeqOk (List.range' s n) = true := by
  intro n
  induction n with
  | zero => intro s; rfl
  | succ k ih =>
    intro s
    cases k with
    | zero => rfl
    | succ m =>
      have hc : List.range' s (m+2) = s :: List.range' (s+1) (m+1) := rfl
      have hc2 : List.range' (s+1) (m+1) = (s+1) :: List.range' (s+2) m := rfl
      rw [hc, hc2]
      simp only [adjSeqOk]
      rw [Bool.and_eq_true, beq_iff_eq]
      refine ⟨?_, ?_⟩
      · omega
      · rw [← hc2]
        exact ih (s+1)

/-- Sorting a permutation of a contiguous run yields the run itself. -/
theorem pySortNat_perm_range {l : List Nat} {n : Nat}
    (h : l.Perm (List.range' 1 n)) : pySortNat l = List.range' 1 n := by
  haveI ht : IsTotal Nat (fun a b : Nat => a ≤ b) := ⟨fun a b => Nat.le_total a b⟩
  haveI htr : IsTrans Nat (fun a b : Nat => a ≤ b) := ⟨fun a b c => Nat.le_trans⟩
  haveI ha : IsAntisymm Nat (fun a b : Nat => a ≤ b) := ⟨fun a b => Nat.le_antisymm⟩
  have p1 := List.perm_insertionSort (fun a b : Nat => a ≤ b) l
  have s1 := List.sorted_insertionSort (fun a b : Nat => a ≤ b) l
  exact List.eq_of_perm_of_sorted (p1.trans h) s1 (sorted_range' n 1)

/-- A disc listed among the tracks carries at least one track. -/
theorem tracksOnDisc_pos (r : Release) (d : Nat) (h : d ∈ discsOf r.trackVals) :
    0 < (tracksOnDisc r d).length := by
  rcases List.mem_map.1 h with ⟨t, ht, hd⟩
  have hmem : t ∈ tracksOnDisc r d := List.mem_filter.2 ⟨ht, by simp [hd]⟩
  exact List.length_pos.2 (List.ne_nil_of_mem hmem)

end Metafix

namespace Metafix

/-- Claim C6: for every release in which, on each disc (missing disc numbers
defaulting to 1), the multiset of truthy track numbers is exactly `1..n` for
that disc's `n` tracks (no gaps, no duplicates, every track numbered),
`validate_track_numbers` returns the empty map and `get_total_tracks` maps
each disc to its true track count: every entry of `get_total_tracks` carries
its disc's count and every disc is present with its count. -/
theorem claim_C6_gapless_track_numbers (r : Release)
    (h : ∀ d ∈ discsOf r.trackVals,
        (collectDisc r.trackVals d).Perm (List.range' 1 (tracksOnDisc r d).length)) :
    r.validate_track_numbers = [] ∧
    (∀ q ∈ r.get_total_tracks, q.2 = some (tracksOnDisc r q.1).length) ∧
    (∀ d ∈ discsOf r.trackVals,
        (d, some (tracksOnDisc r d).length) ∈ r.get_total_tracks) := by
  have key : ∀ p ∈ r.disc_numbers_by_track,
      p.1 ∈ discsOf r.trackVals ∧ p.2 = List.range' 1 (tracksOnDisc r p.1).length := by
    intro p hp
    have halook := mem_alook _ (dnbt_keys_nodup r) p hp
    rw [dnbt_alook] at halook
    by_cases hmem : p.1 ∈ discsOf r.trackVals
    · rw [if_pos hmem] at halook
      refine ⟨hmem, ?_⟩
      have hval := Option.some.inj halook
      rw [← hval, pySortNat_perm_range (h p.1 hmem)]
    · rw [if_neg hmem] at halook
      cases halook
  have hentry : ∀ p ∈ r.disc_numbers_by_track,
      ∃ k, (tracksOnDisc r p.1).length = k + 1 ∧ p.2 = List.range' 1 (k+1) := by
    intro p hp
    obtain ⟨hmem, hval⟩ := key p hp
    have hpos := tracksOnDisc_pos r p.1 hmem
    cases hn : (tracksOnDisc r p.1).length with
    | zero => rw [hn] at hpos; cases hpos
    | succ k => exact ⟨k, rfl, by rw [hval, hn]⟩
  refine ⟨?_, ?_, ?_⟩
  · unfold Release.validate_track_numbers
    dsimp only
    have hall : (r.disc_numbers_by_track.all
        (fun p => !p.2.isEmpty && p.2.headD 0 == 1 && adjSeqOk p.2)) = true := by
      rw [List.all_eq_true]
      intro p hp
      obtain ⟨k, _, hval⟩ := hentry p hp
      rw [hval]
      have hc : List.range' 1 (k+1) = 1 :: List.range' 2 k := rfl
      rw [Bool.and_eq_true, Bool.and_eq_true]
      refine ⟨⟨?_, ?_⟩, adjSeqOk_range' (k+1) 1⟩
      · rw [hc]; rfl
      · rw [hc]; rfl
    rw [if_pos hall]
  · intro q hq
    rcases List.mem_map.1 hq with ⟨p, hp, hg⟩
    obtain ⟨k, hk, hval⟩ := hentry p hp
    rw [← hg]
    dsimp only
    rw [hval, if_pos (adjSeqOk_range' (k+1) 1), List.length_range', hk]
  · intro d hd
    have ha := dnbt_alook r d
    rw [if_pos hd] at ha
    have hm := alook_mem d _ _ ha
    have hval : pySortNat (collectDisc r.trackVals d) =
        List.range' 1 (tracksOnDisc r d).length := pySortNat_perm_range (h d hd)
    unfold Release.get_total_tracks
    refine List.mem_map.2 ⟨(d, pySortNat (collectDisc r.trackVals d)), hm, ?_⟩
    dsimp only
    rw [hval, if_pos (adjSeqOk_range' _ 1), List.length_range']

/-- Concrete instance of C6: the two-disc witness release satisfies the
gapless-per-disc premise and its conclusions evaluate as stated. -/
theorem claim_C6_gapless_witness :
    (∀ d ∈ discsOf relC6.trackVals,
        (collectDisc relC6.trackVals d).Perm
          (List.range' 1 (tracksOnDisc relC6 d).length)) ∧
    (relC6.validate_track_numbers = [] ∧
      (∀ q ∈ relC6.get_total_tracks, q.2 = some (tracksOnDisc relC6 q.1).length) ∧
      (∀ d ∈ discsOf relC6.trackVals,
          (d, some (tracksOnDisc relC6 d).length) ∈ relC6.get_total_tracks)) :=
  ⟨by decide, claim_C6_gapless_track_numbers relC6 (by decide)⟩

end Metafix

namespace Metafix

/-- The default-carrying last element of a non-empty list is an element. -/
theorem getLastD_mem : ∀ (l : List Nat) (a : Nat), (a :: l).getLastD 0 ∈ a :: l := by
  intro l
  induction l with
  | nil => intro a; simp [List.getLastD]
  | cons b t ih =>
    intro a
    have hc : (a :: b :: t).getLastD 0 = (b :: t).getLastD 0 := rfl
    rw [hc]
    exact List.mem_cons_of_mem a (ih b)

/-- In a sorted list every element is bounded by the last element. -/
theorem sorted_le_getLastD : ∀ (l : List Nat) (a : Nat),
    List.Sorted (fun x y : Nat => x ≤ y) (a :: l) →
    ∀ x ∈ a :: l, x ≤ (a :: l).getLastD 0 := by
  intro l
  induction l with
  | nil =>
    intro a _ x hx
    rw [List.mem_singleton.1 hx]
    exact Nat.le_refl _
  | cons b t ih =>
    intro a hs x hx
    have hc : (a :: b :: t).getLastD 0 = (b :: t).getLastD 0 := rfl
    rw [hc]
    have hs2 := (List.sorted_cons.1 hs).2
    have hab : a ≤ b := (List.sorted_cons.1 hs).1 b (List.mem_cons_self b t)
    rcases List.mem_cons.1 hx with rfl | hx2
    · exact Nat.le_trans hab (ih b hs2 b (List.mem_cons_self b t))
    · exact ih b hs2 x hx2

/-- The scalar `unique` scan returns nothing exactly when everything was
already seen. -/
theorem uniqueBy_id_eq_nil {α : Type} [DecidableEq α] : ∀ (l : List α) (seen : List α),
    uniqueBy id l seen = [] ↔ ∀ x ∈ l, x ∈ seen := by
  intro l
  induction l with
  | nil => intro seen; simp [uniqueBy]
  | cons x xs ih =>
    intro seen
    by_cases hx : x ∈ seen
    · rw [show uniqueBy id (x :: xs) seen = uniqueBy id xs seen from by
        simp [uniqueBy, hx]]
      rw [ih seen]
      simp [hx]
    · constructor
      · intro hcontra
        rw [show uniqueBy id (x :: xs) seen = x :: uniqueBy id xs (id x :: seen) from by
          simp [uniqueBy, hx]] at hcontra
        cases hcontra
      · intro hall
        exact absurd (hall x (List.mem_cons_self x xs)) hx

/-- `unique` keeps exactly one element iff the tail repeats the head. -/
theorem uniqueScalar_length_one {α : Type} [DecidableEq α] (x : α) (xs : List α) :
    (uniqueScalar (x :: xs)).length = 1 ↔ ∀ y ∈ xs, y = x := by
  rw [uniqueScalar_cons, List.length_cons]
  constructor
  · intro h
    have h0 : (uniqueBy id xs [x]).length = 0 := by omega
    have hnil := List.length_eq_zero.1 h0
    intro y hy
    have hmem := (uniqueBy_id_eq_nil xs [x]).1 hnil y hy
    simpa using hmem
  · intro h
    have hnil : uniqueBy id xs [x] = [] :=
      (uniqueBy_id_eq_nil xs [x]).2 (fun y hy => by simp [h y hy])
    rw [hnil]
    rfl

/-- The head of `unique` of a non-empty list is the first element. -/
theorem uniqueScalar_head {α : Type} [DecidableEq α] (x : α) (xs : List α) (d : α) :
    (uniqueScalar (x :: xs)).headD d = x := by
  rw [uniqueScalar_cons]
  rfl

/-- Membership in the sorted disc list is membership among the tracks' discs. -/
theorem sortedDiscs_mem (r : Release) (x : Nat) :
    x ∈ sortedDiscs r ↔ x ∈ discsOf r.trackVals := by
  unfold sortedDiscs pySortNat
  rw [(List.perm_insertionSort (fun a b : Nat => a ≤ b)
      (r.disc_numbers_by_track.map Prod.fst)).mem_iff,
    ← alook_isSome_mem_keys, dnbt_alook]
  by_cases hmem : x ∈ discsOf r.trackVals
  · simp [hmem]
  · simp [hmem]

/-- The disc list `validate_total_discs` sorts is indeed sorted. -/
theorem sortedDiscs_sorted (r : Release) :
    List.Sorted (fun a b : Nat => a ≤ b) (sortedDiscs r) := by
  haveI ht : IsTotal Nat (fun a b : Nat => a ≤ b) := ⟨fun a b => Nat.le_total a b⟩
  haveI htr : IsTrans Nat (fun a b : Nat => a ≤ b) := ⟨fun a b c => Nat.le_trans⟩
  exact List.sorted_insertionSort (fun a b : Nat => a ≤ b)
    (r.disc_numbers_by_track.map Prod.fst)

/-- A number is a disc of the release iff some track sits on it. -/
theorem discsOf_mem_tracks (r : Release) (x : Nat) :
    x ∈ discsOf r.trackVals ↔ ∃ p ∈ r.tracks, pyOr1 p.2.disc_number = x := by
  unfold discsOf Release.trackVals
  simp only [List.mem_map]
  constructor
  · rintro ⟨t, ⟨p, hp, rfl⟩, hx⟩
    exact ⟨p, hp, hx⟩
  · rintro ⟨p, hp, hx⟩
    exact ⟨p.2, ⟨p, hp, rfl⟩, hx⟩

/-- Extremal facts about the last element of the sorted disc list. -/
theorem sortedDiscs_getLastD (r : Release) (h : sortedDiscs r ≠ []) :
    (sortedDiscs r).getLastD 0 ∈ sortedDiscs r ∧
    ∀ x ∈ sortedDiscs r, x ≤ (sortedDiscs r).getLastD 0 := by
  cases hdc : sortedDiscs r with
  | nil => exact absurd hdc h
  | cons a l =>
    have hs := sortedDiscs_sorted r
    rw [hdc] at hs
    exact ⟨getLastD_mem l a, sorted_le_getLastD l a hs⟩

end Metafix

namespace Metafix

/-- Claim C7: for every non-empty release, `validate_total_discs` returns
true iff all tracks carry one and the same `total_discs` value and that value
equals the maximum disc number present among the tracks (missing or zero disc
numbers defaulting to 1); the maximum is phrased as an upper bound that is
attained. -/
theorem claim_C7_total_discs (r : Release) (hne : r.tracks ≠ []) :
    r.validate_total_discs = true ↔
      ∃ v, (∀ p ∈ r.tracks, p.2.total_discs = some v) ∧
        (∀ p ∈ r.tracks, pyOr1 p.2.disc_number ≤ v) ∧
        (∃ p ∈ r.tracks, pyOr1 p.2.disc_number = v) := by
  obtain ⟨p0, rest, htr⟩ : ∃ p0 rest, r.tracks = p0 :: rest := by
    cases h : r.tracks with
    | nil => exact absurd h hne
    | cons a b => exact ⟨a, b, rfl⟩
  have hmem_tracks : p0 ∈ r.tracks := htr ▸ List.mem_cons_self p0 rest
  have htd : r.trackVals.map (fun t => t.total_discs) =
      p0.2.total_discs :: (rest.map Prod.snd).map (fun t => t.total_discs) := by
    unfold Release.trackVals
    rw [htr]
    rfl
  have hds_ne : sortedDiscs r ≠ [] :=
    List.ne_nil_of_mem ((sortedDiscs_mem r _).2
      ((discsOf_mem_tracks r _).2 ⟨p0, hmem_tracks, rfl⟩))
  obtain ⟨hlast_mem, hmax⟩ := sortedDiscs_getLastD r hds_ne
  have hexp : r.validate_total_discs =
      ((uniqueScalar (r.trackVals.map fun t => t.total_discs)).length == 1 &&
        !(sortedDiscs r).isEmpty &&
        (match (uniqueScalar (r.trackVals.map fun t => t.total_discs)).headD none with
         | some v => v == (sortedDiscs r).getLastD 0
         | none => false)) := rfl
  rw [hexp]
  constructor
  · intro hcode
    rw [Bool.and_eq_true, Bool.and_eq_true] at hcode
    obtain ⟨⟨hlen, _⟩, hmatch⟩ := hcode
    have hlen2 : (uniqueScalar (r.trackVals.map fun t => t.total_discs)).length = 1 :=
      beq_iff_eq.1 hlen
    rw [htd] at hlen2
    have hallys := (uniqueScalar_length_one _ _).1 hlen2
    rw [htd, uniqueScalar_head] at hmatch
    cases hy : p0.2.total_discs with
    | none =>
      rw [hy] at hmatch
      cases hmatch
    | some v =>
      rw [hy] at hmatch
      have hveq : v = (sortedDiscs r).getLastD 0 := beq_iff_eq.1 hmatch
      refine ⟨v, ?_, ?_, ?_⟩
      · intro p hp
        rw [htr] at hp
        rcases List.mem_cons.1 hp with rfl | hp2
        · exact hy
        · have hmemys : p.2.total_discs ∈
              (rest.map Prod.snd).map (fun t => t.total_discs) :=
            List.mem_map.2 ⟨p.2, List.mem_map.2 ⟨p, hp2, rfl⟩, rfl⟩
          rw [hallys _ hmemys]
          exact hy
      · intro p hp
        have hx : pyOr1 p.2.disc_number ∈ sortedDiscs r :=
          (sortedDiscs_mem r _).2 ((discsOf_mem_tracks r _).2 ⟨p, hp, rfl⟩)
        have hb := hmax _ hx
        rw [← hveq] at hb
        exact hb
      · obtain ⟨p, hp, hpd⟩ :=
          (discsOf_mem_tracks r _).1 ((sortedDiscs_mem r _).1 hlast_mem)
        exact ⟨p, hp, hpd.trans hveq.symm⟩
  · rintro ⟨v, hall, hub, ⟨p, hp, hpv⟩⟩
    have hy : p0.2.total_discs = some v := hall p0 hmem_tracks
    have hlen : (uniqueScalar (r.trackVals.map fun t => t.total_discs)).length = 1 := by
      rw [htd]
      refine (uniqueScalar_length_one _ _).2 ?_
      intro z hz
      simp only [List.mem_map] at hz
      obtain ⟨t, ⟨q, hq, rfl⟩, rfl⟩ := hz
      rw [hall q (htr ▸ List.mem_cons_of_mem p0 hq), hy]
    have hlast : (sortedDiscs r).getLastD 0 = v := by
      have h2 : (sortedDiscs r).getLastD 0 ≤ v := by
        obtain ⟨q, hq, hqd⟩ :=
          (discsOf_mem_tracks r _).1 ((sortedDiscs_mem r _).1 hlast_mem)
        rw [← hqd]
        exact hub q hq
      have h3 : v ∈ sortedDiscs r :=
        (sortedDiscs_mem r _).2 ((discsOf_mem_tracks r _).2 ⟨p, hp, hpv⟩)
      exact Nat.le_antisymm h2 (hmax _ h3)
    rw [Bool.and_eq_true, Bool.and_eq_true]
    refine ⟨⟨beq_iff_eq.2 hlen, ?_⟩, ?_⟩
    · have hfalse : (sortedDiscs r).isEmpty = false := by
        cases hdc : sortedDiscs r with
        | nil => exact absurd hdc hds_ne
        | cons a l => rfl
      rw [hfalse]
      rfl
    · rw [htd, uniqueScalar_head, hy, hlast]
      simp

/-- Concrete instance of C7: the two-disc witness release is non-empty and
its `validate_total_discs` verdict matches the single-value-equals-maximum
characterisation. -/
theorem claim_C7_total_discs_witness :
    relC7.tracks ≠ [] ∧
    (relC7.validate_total_discs = true ↔
      ∃ v, (∀ p ∈ relC7.tracks, p.2.total_discs = some v) ∧
        (∀ p ∈ relC7.tracks, pyOr1 p.2.disc_number ≤ v) ∧
        (∃ p ∈ relC7.tracks, pyOr1 p.2.disc_number = v)) :=
  ⟨by decide, claim_C7_total_discs relC7 (by decide)⟩

end Metafix
